import Mathlib

/-!
Shallow embedding of the ClipAiServer job-orchestration core.

Source files embedded:
- `app/models/clip_job.py` (job record, status enum)
- `app/services/clip_generator.py` (pipeline, job-store mutations, trim fan-out)
- `app/services/downloader.py` (async download, filename derivation)
- `app/services/clipsai_mediaeditor_service.py` (trim with partial-file cleanup)
- `app/services/storage.py` (output path layout)
- `app/api/routes.py` (delete endpoint, single-clip download endpoint)

Conventions of the embedding:
- Timestamps (`datetime.utcnow()`) are abstract clock ticks (`Nat`), passed in
  explicitly as `now`.
- The SQLAlchemy session is a `List ClipJobRec`; `query(...).filter(job_id==x).first()`
  is `dbFind`, and mutating the found record plus `commit` is `replaceFirst`.
- External black boxes (HTTP response, WhisperX, ClipFinder, MediaEditor) are
  oracles: their outcomes are inputs to the embedded functions, as `Except`
  values or boolean outcome functions.
- Clip time offsets are rationals (the Python floats are only compared and
  subtracted here, never rounded).
- The filesystem, where a claim needs it, is the list of existing file paths.
-/

namespace ClipAi

/-- `JobStatus` enum of `app/models/clip_job.py`. -/
inductive JobStatus where
  | pending
  | processing
  | completed
  | failed
deriving DecidableEq, Repr

/-- One entry of the `generated_clips` JSON list built by
`ClipGenerator._trim_clips` (`clip_generator.py` lines 254-260). -/
structure ClipMeta where
  filename : String
  path : String
  startTime : ℚ
  endTime : ℚ
  duration : ℚ
deriving DecidableEq, Repr

/-- A detected clip boundary as returned by the ClipFinder black box
(only the fields the pipeline reads: `clip.start_time`, `clip.end_time`). -/
structure Segment where
  startTime : ℚ
  endTime : ℚ
deriving DecidableEq, Repr

/-- The `ClipJob` database record (`app/models/clip_job.py`).
`generated_clips` defaults to the empty list, `error_message` and
`completed_at` are nullable. -/
structure ClipJobRec where
  jobId : String
  status : JobStatus
  inputFile : String
  statusMessage : String
  generatedClips : List ClipMeta
  errorMessage : Option String
  createdAt : Nat
  updatedAt : Nat
  completedAt : Option Nat
deriving DecidableEq, Repr

/-- `db.query(ClipJob).filter(ClipJob.job_id == job_id).first()`. -/
def dbFind (db : List ClipJobRec) (jobId : String) : Option ClipJobRec :=
  db.find? (fun j => j.jobId == jobId)

/-- Mutating the record returned by `.first()` and committing: the first
record with the given id is replaced by `f` of itself; if no record
matches, the session is unchanged (the Python code does nothing when
`job` is `None`). -/
def replaceFirst (db : List ClipJobRec) (jobId : String)
    (f : ClipJobRec → ClipJobRec) : List ClipJobRec :=
  match db with
  | [] => []
  | j :: rest =>
    if j.jobId == jobId then f j :: rest
    else j :: replaceFirst rest jobId f

/-- The job record created by the `/generate` route
(`routes.py` lines 66-71): `Pending`, message "Aguardando processamento",
default-empty clips, null error, null completion time. -/
def newClipJob (jobId : String) (videoPath : String) (now : Nat) : ClipJobRec :=
  { jobId := jobId
    status := .pending
    inputFile := videoPath
    statusMessage := "Aguardando processamento"
    generatedClips := []
    errorMessage := none
    createdAt := now
    updatedAt := now
    completedAt := none }

/-- The four record mutations the pipeline performs on a job, in the order
`generate_clip` issues them: progress updates (`_update_job_status`),
the input-path write after stage 1, and the two terminal writes
(`_update_job_success`, `_update_job_failure`). -/
inductive JobMut where
  | setStatus (st : JobStatus) (msg : String)
  | setInput (path : String)
  | success (clips : List ClipMeta)
  | failure (msg : String)
deriving DecidableEq, Repr

/-- The field writes each mutation performs on the found record
(`clip_generator.py` lines 273-336 and 130-135). Every commit refreshes
`updated_at` (column `onupdate`). -/
def applyMut (now : Nat) (m : JobMut) (j : ClipJobRec) : ClipJobRec :=
  match m with
  | .setStatus st msg =>
    { j with status := st, statusMessage := msg, updatedAt := now }
  | .setInput p =>
    { j with inputFile := p, updatedAt := now }
  | .success clips =>
    { j with status := .completed
             statusMessage :=
               "Concluído: " ++ toString clips.length ++ " clips gerados"
             generatedClips := clips
             completedAt := some now
             updatedAt := now }
  | .failure msg =>
    { j with status := .failed
             errorMessage := some msg
             statusMessage := "Erro: " ++ msg
             completedAt := some now
             updatedAt := now }

/-- `ClipGenerator._update_job_status`: find the job, write status and
message, commit; silently a no-op when the job does not exist. -/
def updateJobStatus (db : List ClipJobRec) (jobId : String)
    (st : JobStatus) (msg : String) (now : Nat) : List ClipJobRec :=
  replaceFirst db jobId (applyMut now (.setStatus st msg))

/-- `ClipGenerator._update_job_success`. -/
def updateJobSuccess (db : List ClipJobRec) (jobId : String)
    (clips : List ClipMeta) (now : Nat) : List ClipJobRec :=
  replaceFirst db jobId (applyMut now (.success clips))

/-- `ClipGenerator._update_job_failure`. -/
def updateJobFailure (db : List ClipJobRec) (jobId : String)
    (msg : String) (now : Nat) : List ClipJobRec :=
  replaceFirst db jobId (applyMut now (.failure msg))

/-- Applying one pipeline mutation to the session. -/
def runMut (jobId : String) (now : Nat) (db : List ClipJobRec)
    (m : JobMut) : List ClipJobRec :=
  replaceFirst db jobId (applyMut now m)

/-- Applying a sequence of mutations to a single record. -/
def applyTrace (now : Nat) (l : List JobMut) (j : ClipJobRec) : ClipJobRec :=
  l.foldl (fun acc m => applyMut now m acc) j

/-! ## Storage layout and the trim fan-out -/

/-- Python `"%03d" % n` / `f"{n:03d}"`: decimal digits zero-padded on the
left to width at least 3. -/
def pad3 (n : Nat) : String :=
  let s := toString n
  String.mk (List.replicate (3 - s.length) (Char.ofNat 48)) ++ s

/-- The output filename built in `_trim_clips`:
`f"clip_{job_id}_{idx:03d}.mp4"` with `idx` the 1-based enumeration index
over all detected clips. -/
def clipFilename (jobId : String) (idx : Nat) : String :=
  "clip_" ++ jobId ++ "_" ++ pad3 idx ++ ".mp4"

/-- `StorageService.get_output_path`: `<output_dir>/<job_id>/<filename>`
(the directory creation is a filesystem side effect with no bearing on the
returned path). -/
def getOutputPath (outputDir : String) (jobId : String) (filename : String) :
    String :=
  outputDir ++ "/" ++ jobId ++ "/" ++ filename

/-- The metadata dict appended for a successfully trimmed clip
(`clip_generator.py` lines 253-260). -/
def mkClipMeta (outputDir : String) (jobId : String) (idx : Nat)
    (c : Segment) : ClipMeta :=
  { filename := clipFilename jobId idx
    path := getOutputPath outputDir jobId (clipFilename jobId idx)
    startTime := c.startTime
    endTime := c.endTime
    duration := c.endTime - c.startTime }

/-- The `for idx, clip in enumerate(clips, 1)` loop body of `_trim_clips`,
starting at enumeration index `idx`. `trimOk i` is the black-box outcome
of attempting segment number `i` (covering both `get_output_path` and
`MediaEditorService.trim`: any exception in the loop body is caught and
the segment skipped with `continue`). -/
def trimClipsGo (outputDir : String) (jobId : String) (idx : Nat)
    (trimOk : Nat → Bool) : List Segment → List ClipMeta
  | [] => []
  | c :: rest =>
    if trimOk idx then
      mkClipMeta outputDir jobId idx c ::
        trimClipsGo outputDir jobId (idx + 1) trimOk rest
    else
      trimClipsGo outputDir jobId (idx + 1) trimOk rest

/-- `ClipGenerator._trim_clips` after the media-file reference was created:
attempts every segment in order, collecting metadata for the successful
trims. -/
def trimClips (outputDir : String) (jobId : String) (clips : List Segment)
    (trimOk : Nat → Bool) : List ClipMeta :=
  trimClipsGo outputDir jobId 1 trimOk clips

/-! ## The pipeline (`ClipGenerator.generate_clip`) -/

/-- The outcomes of the external collaborators for one pipeline run.
`download`, `transcribe`, `findClips` and `mediaFile` carry either the
value produced or the message of the exception raised; `trimOk` is the
per-segment trim outcome. The transcript itself is opaque to the
pipeline, so a successful transcription is just `()`. -/
structure PipelineEnv where
  isUrl : Bool
  download : Except String String
  localExists : Bool
  transcribe : Except String Unit
  findClips : Except String (List Segment)
  mediaFile : Except String Unit
  trimOk : Nat → Bool

/-- Stages 2-5 of `generate_clip` (after the input was resolved to
`videoPath` and written to the record), as the sequence of job mutations
performed. Each failure message is the wrapped message the top-level
handler stores (`str(e)` of the exception that reached it). -/
def pipelineRest (outputDir : String) (jobId : String) (env : PipelineEnv) :
    List JobMut :=
  .setStatus .processing "Transcrevendo vídeo com WhisperX..." ::
  match env.transcribe with
  | .error e => [.failure ("Transcription failed: " ++ e)]
  | .ok _ =>
    .setStatus .processing "Detectando clips com TextTiling..." ::
    match env.findClips with
    | .error e => [.failure ("Clip finding failed: " ++ e)]
    | .ok clips =>
      if clips.isEmpty then [.failure "No clips detected in transcription"]
      else
        .setStatus .processing
          ("Gerando " ++ toString clips.length ++ " clips...") ::
        match env.mediaFile with
        | .error e => [.failure e]
        | .ok _ =>
          let gen := trimClips outputDir jobId clips env.trimOk
          if gen.isEmpty then [.failure "Failed to generate any clips"]
          else [.success gen]

/-- The complete sequence of job mutations `generate_clip` performs, in
order, for a run over input `videoPath`: stage 1 resolves the input
(download branch or local-file branch), writes the resolved path to the
record, then `pipelineRest` runs stages 2-5. Every raised exception is
caught by the top-level handler and becomes the final `.failure`
mutation. -/
def pipelineTrace (outputDir : String) (jobId : String) (videoPath : String)
    (env : PipelineEnv) : List JobMut :=
  if env.isUrl then
    .setStatus .processing "Baixando vídeo da web..." ::
    match env.download with
    | .error e => [.failure ("Download failed: " ++ e)]
    | .ok p => .setInput p :: pipelineRest outputDir jobId env
  else
    if env.localExists then
      .setInput videoPath :: pipelineRest outputDir jobId env
    else
      [.failure ("Input video file not found: " ++ videoPath)]

/-- `ClipGenerator.generate_clip` as a session transformer: the trace of
mutations folded over the session. The function is total — the Python
coroutine never re-raises past its `try`/`except` boundary. -/
def generateClip (db : List ClipJobRec) (outputDir : String) (jobId : String)
    (videoPath : String) (env : PipelineEnv) (now : Nat) : List ClipJobRec :=
  (pipelineTrace outputDir jobId videoPath env).foldl (runMut jobId now) db

/-! ## Downloader (`app/services/downloader.py`) -/

/-- `isPre pat l`: `pat` is a prefix of `l`. -/
def isPre : List Char → List Char → Bool
  | [], _ => true
  | _ :: _, [] => false
  | p :: ps, c :: cs => p == c && isPre ps cs

/-- `subList pat l`: `pat` occurs somewhere in `l`. -/
def subList (pat : List Char) : List Char → Bool
  | [] => isPre pat []
  | c :: cs => isPre pat (c :: cs) || subList pat cs

/-- Python `needle in haystack` on strings. -/
def containsSub (hay pat : String) : Bool :=
  subList pat.toList hay.toList

/-- The text after the first occurrence of `pat`, `none` when `pat` does
not occur. -/
def afterFirst (pat : List Char) : List Char → Option (List Char)
  | [] => if isPre pat [] then some [] else none
  | c :: cs =>
    if isPre pat (c :: cs) then some ((c :: cs).drop pat.length)
    else afterFirst pat cs

/-- The text before the first occurrence of `pat` (the whole list when
`pat` does not occur). -/
def beforeFirst (pat : List Char) : List Char → List Char
  | [] => []
  | c :: cs =>
    if isPre pat (c :: cs) then [] else c :: beforeFirst pat cs

/-- Python `haystack.split(pat)[1]`: the text between the first
occurrence of `pat` and the next one (scanning left to right), `none`
when `pat` does not occur at all (the `IndexError` case). -/
def splitSecondPiece (hay pat : String) : Option String :=
  match afterFirst pat.toList hay.toList with
  | none => none
  | some rest => some (String.mk (beforeFirst pat.toList rest))

/-- Splitting a character list on a separator character (Python
`str.split(<sep>)` for a one-character separator). -/
def splitChar (sep : Char) : List Char → List (List Char)
  | [] => [[]]
  | c :: cs =>
    match splitChar sep cs with
    | [] => []
    | h :: t => if c == sep then [] :: h :: t else (c :: h) :: t

/-- Python `str.lower()` (character-wise). -/
def lowerStr (s : String) : String :=
  String.mk (s.toList.map Char.toLower)

/-- The two characters of the Python strip set in
`.strip(<doublequote><singlequote>)` (codes 34 and 39). -/
def quoteChars : List Char := [Char.ofNat 34, Char.ofNat 39]

/-- Python `str.strip(chars)`: remove characters of the set from both
ends. -/
def stripChars (s : String) (cs : List Char) : String :=
  String.mk
    (((s.toList.dropWhile (fun c => cs.contains c)).reverse.dropWhile
      (fun c => cs.contains c)).reverse)

/-- `pathlib.Path(p).name`: the last component of the path after dropping
empty and single-dot components (pathlib normalizes away trailing slashes
and `.`; it keeps `..`). -/
def pathBasename (p : String) : String :=
  match ((splitChar (Char.ofNat 47) p.toList).filter
      (fun c => c != [] && c != [Char.ofNat 46])).getLast? with
  | some c => String.mk c
  | none => ""

/-- The `extension_map` dict of `_get_extension`, in insertion order. -/
def extensionMap : List (String × String) :=
  [("video/mp4", ".mp4"),
   ("video/quicktime", ".mov"),
   ("video/x-msvideo", ".avi"),
   ("video/x-matroska", ".mkv"),
   ("video/webm", ".webm"),
   ("video/mpeg", ".mpeg"),
   ("application/octet-stream", ".mp4")]

/-- `AsyncVideoDownloader._get_extension`: first map entry whose key is a
substring of the lowercased content-type, else `.mp4`. -/
def getExtension (contentType : String) : String :=
  match extensionMap.find? (fun kv => containsSub (lowerStr contentType) kv.1) with
  | some kv => kv.2
  | none => ".mp4"

/-- The `f"video_{timestamp}{extension}"` fallback name. -/
def timestampName (timestamp contentType : String) : String :=
  "video_" ++ timestamp ++ getExtension contentType

/-- The URL-basename / timestamp fallback branches of `_generate_filename`
(lines 231-241): the basename of the parsed URL path when it is non-empty
and has a dot, else the timestamp name. -/
def urlOrTimestampName (urlPath timestamp contentType : String) : String :=
  if urlPath != "" then
    let name := pathBasename urlPath
    if name != "" && containsSub name "." then name
    else timestampName timestamp contentType
  else timestampName timestamp contentType

/-- `AsyncVideoDownloader._generate_filename`. `urlPath` is the `path`
component of `urlparse(url)`. The `.error` case is the `IndexError` the
code raises when the header contains `filename` but not `filename=`
(`split("filename=")[1]` on a one-element list). -/
def generateFilename (cd urlPath timestamp contentType : String) :
    Except String String :=
  if containsSub cd "filename" then
    match splitSecondPiece cd "filename=" with
    | none => .error "IndexError: list index out of range"
    | some part =>
      let fn := stripChars part quoteChars
      if fn != "" then .ok fn
      else .ok (urlOrTimestampName urlPath timestamp contentType)
  else .ok (urlOrTimestampName urlPath timestamp contentType)

/-- One event of the streamed response body, as seen by the
`async for chunk in response.content.iter_chunked(...)` loop: a chunk of
`size` bytes, a network/protocol error raised by the iterator, or an
`OSError` raised by `f.write`. -/
inductive DlEvent where
  | chunk (size : Nat)
  | netErr (msg : String)
  | writeErr (msg : String)
deriving DecidableEq, Repr

/-- The HTTP response the downloader observes. -/
structure DlResponse where
  okStatus : Bool
  contentLength : Option Nat
  contentDisposition : String
  contentType : String
  events : List DlEvent

/-- The byte-size limit in the code: `max_size_mb * 1024 * 1024`. (The
Python comparisons divide by `1024*1024` in binary floating point, which
is an exact exponent shift, so comparing the byte counts directly is
equivalent for any realistic size.) -/
def mbLimit (maxSizeMB : Nat) : Nat := maxSizeMB * 1024 * 1024

/-- The download loop over the body events, carrying `downloaded_size`.
Returns the loop outcome together with the state of the cache file:
`some n` when a file of `n` bytes is on disk afterwards, `none` when no
file remains. Empty chunks are skipped (`if chunk:`); when the running
size exceeds the limit the file is unlinked before the `ValueError` is
raised; a network or write error propagates with the partial file left
in place (only the size check unlinks). -/
def dlLoop (maxSizeMB : Nat) (size : Nat) :
    List DlEvent → Except String Unit × Option Nat
  | [] => (.ok (), some size)
  | .chunk n :: rest =>
    if n == 0 then dlLoop maxSizeMB size rest
    else
      let size' := size + n
      if size' > mbLimit maxSizeMB then
        (.error ("File exceeded " ++ toString maxSizeMB ++ "MB limit"), none)
      else dlLoop maxSizeMB size' rest
  | .netErr m :: _ => (.error m, some size)
  | .writeErr m :: _ => (.error m, some size)

/-- Result of a download: the returned path or propagated error message,
and the state of the cache file (`some n` = a file of `n` bytes exists). -/
structure DlResult where
  result : Except String String
  cacheFile : Option Nat
deriving Repr

/-- `AsyncVideoDownloader.download_video`. `urlSchemeOk` is the
`parsed.scheme in ("http","https")` test and `urlPath` the parsed path.
Order of effects as in the source: scheme check, `raise_for_status`,
content-length check (before any file is created), filename generation
(before the file is opened), then `open(output_path, "wb")` creates the
file and the chunk loop runs. Numeric formatting inside error-message
strings is abstracted where no behaviour depends on it. -/
def downloadVideo (cacheDir : String) (urlSchemeOk : Bool) (urlPath : String)
    (timestamp : String) (resp : DlResponse) (maxSizeMB : Nat) : DlResult :=
  if !urlSchemeOk then
    ⟨.error "Invalid URL scheme. Expected http/https", none⟩
  else if !resp.okStatus then
    ⟨.error "HTTP status error", none⟩
  else
    match resp.contentLength with
    | some cl =>
      if cl > mbLimit maxSizeMB then
        ⟨.error ("File too large: > " ++ toString maxSizeMB ++ "MB limit"),
         none⟩
      else downloadStream cacheDir urlPath timestamp resp maxSizeMB
    | none => downloadStream cacheDir urlPath timestamp resp maxSizeMB
where
  /-- Filename generation, file creation and the chunk loop. -/
  downloadStream (cacheDir urlPath timestamp : String) (resp : DlResponse)
      (maxSizeMB : Nat) : DlResult :=
    match generateFilename resp.contentDisposition urlPath timestamp
        resp.contentType with
    | .error e => ⟨.error e, none⟩
    | .ok filename =>
      match dlLoop maxSizeMB 0 resp.events with
      | (.ok _, fileState) => ⟨.ok (cacheDir ++ "/" ++ filename), fileState⟩
      | (.error e, fileState) => ⟨.error e, fileState⟩

/-! ## MediaEditor trim (`app/services/clipsai_mediaeditor_service.py`) -/

/-- Outcome of the underlying `clipsai` `MediaEditor.trim` call: success
(the output file was written), failure after the output file was created,
or failure with no output file created. -/
inductive TrimOutcome where
  | ok
  | failCreated (msg : String)
  | failNoFile (msg : String)
deriving DecidableEq, Repr

/-- `MediaEditorService.trim` over a filesystem `fs` (the list of existing
paths). Parameter validation happens before anything touches the disk;
after a black-box failure the `except` block removes the file at
`output_path` whenever it exists, then re-raises. (The directory-creation
side effect of `os.makedirs` is irrelevant to path existence and omitted;
`os.remove` on an existing path is modelled as succeeding.) -/
def trimMedia (fs : List String) (startTime endTime : ℚ)
    (outputPath : String) (outcome : TrimOutcome) :
    Except String Unit × List String :=
  if startTime < 0 then
    (.error ("start_time must be >= 0, got " ++ toString startTime), fs)
  else if endTime ≤ startTime then
    (.error "start_time must be < end_time", fs)
  else
    match outcome with
    | .ok => (.ok (), fs.insert outputPath)
    | .failCreated m =>
      -- the black box created the file; the cleanup removes it
      (.error m, ((fs.insert outputPath).filter (fun p => p != outputPath)))
    | .failNoFile m =>
      -- no file was created; the cleanup still removes a pre-existing one
      (.error m, fs.filter (fun p => p != outputPath))

/-! ## Routes (`app/api/routes.py`) -/

/-- The `HTTPException`s the routes raise: 404 / 400 with a detail. -/
inductive ApiError where
  | notFound (detail : String)
  | badRequest (detail : String)
deriving DecidableEq, Repr

/-- `JobStatus.value` strings of the Python enum. -/
def JobStatus.value : JobStatus → String
  | .pending => "pending"
  | .processing => "processing"
  | .completed => "completed"
  | .failed => "failed"

/-- The `download_clip` route (`routes.py` lines 188-259): looks up the
job, requires `Completed`, requires a non-empty clips list, bounds-checks
the 0-based index, requires the file to exist, and serves the file at the
stored path. -/
def apiDownloadClip (db : List ClipJobRec) (fs : List String)
    (jobId : String) (clipIndex : Int) : Except ApiError String :=
  match dbFind db jobId with
  | none => .error (.notFound ("Job " ++ jobId ++ " not found"))
  | some job =>
    if job.status != .completed then
      .error (.badRequest ("Job " ++ jobId ++ " is not completed. " ++
        "Current status: " ++ job.status.value))
    else if job.generatedClips.isEmpty then
      .error (.notFound "No clips found for this job")
    else if clipIndex < 0 || clipIndex ≥ (job.generatedClips.length : Int) then
      .error (.badRequest "Invalid clip index")
    else
      match job.generatedClips.get? clipIndex.toNat with
      | none => .error (.badRequest "Invalid clip index")
      | some clip =>
        if fs.contains clip.path then .ok clip.path
        else .error (.notFound "Clip file not found on server")

/-- `db.delete(job)`: remove the first record with the given id. -/
def removeFirstJob (db : List ClipJobRec) (jobId : String) :
    List ClipJobRec :=
  match db with
  | [] => []
  | j :: rest =>
    if j.jobId == jobId then rest else j :: removeFirstJob rest jobId

/-- The artifact-deletion loop of `delete_job_clips` (lines 406-416):
for each clip, if its file exists, unlink it and count it; an `OSError`
from the unlink is caught and the loop continues; a missing file is
silently skipped. -/
def deleteClipsLoop (unlinkFails : String → Bool) :
    List ClipMeta → List String → Nat → List String × Nat
  | [], fs, n => (fs, n)
  | c :: rest, fs, n =>
    if fs.contains c.path then
      if unlinkFails c.path then deleteClipsLoop unlinkFails rest fs n
      else
        deleteClipsLoop unlinkFails rest
          (fs.filter (fun p => p != c.path)) (n + 1)
    else deleteClipsLoop unlinkFails rest fs n

/-- Result of the delete route: final session, final filesystem, the
`clips_deleted` count returned in the response body, and the HTTP
outcome. -/
structure DeleteOutcome where
  db : List ClipJobRec
  fs : List String
  clipsDeleted : Nat
  response : Except ApiError String
deriving Repr

/-- The input-file deletion step of `delete_job_clips` (lines 419-427):
the input file is deleted when its path is non-empty, contains the
substring `temp_uploads`, and the file exists; an `OSError` from the
unlink is caught (the file then stays). -/
def deleteInputStep (unlinkFails : String → Bool) (inputFile : String)
    (fs : List String) : List String :=
  if inputFile != "" then
    if containsSub inputFile "temp_uploads" && fs.contains inputFile then
      if unlinkFails inputFile then fs
      else fs.filter (fun p => p != inputFile)
    else fs
  else fs

/-- `delete_job_clips` (`routes.py` lines 373-448): 404 when the job does
not exist; otherwise best-effort deletion of each artifact file, then the
input-file deletion step, then the record is removed and the count of
deleted artifact files is returned. -/
def deleteJobClips (db : List ClipJobRec) (fs : List String)
    (unlinkFails : String → Bool) (jobId : String) : DeleteOutcome :=
  match dbFind db jobId with
  | none =>
    ⟨db, fs, 0, .error (.notFound ("Job " ++ jobId ++ " not found"))⟩
  | some job =>
    let r := deleteClipsLoop unlinkFails job.generatedClips fs 0
    ⟨removeFirstJob db jobId,
     deleteInputStep unlinkFails job.inputFile r.1, r.2,
     .ok ("Job " ++ jobId ++ " deleted successfully")⟩

/-! ## Spec-side definitions

These definitions follow the wording of the specification; the claims
compare them with the embedded source functions above. -/

/-- Spec §4.3 stage 4 / scenario C: the artifacts of the successful trims,
one per successfully trimmed segment, numbered by the segment's 1-based
position among all detected segments, in the segments' original relative
order. -/
def successfulArtifacts (outputDir jobId : String) (clips : List Segment)
    (trimOk : Nat → Bool) : List ClipMeta :=
  ((List.enumFrom 1 clips).filter (fun p => trimOk p.1)).map
    (fun p => mkClipMeta outputDir jobId p.1 p.2)

/-- Spec §3 invariant on a job record: `results` non-empty only when
`Completed`; `errorMessage` non-null only when `Failed`; `completedAt`
set iff the status is terminal. -/
def jobInvariant (j : ClipJobRec) : Prop :=
  (j.generatedClips ≠ [] → j.status = .completed) ∧
  (j.errorMessage ≠ none → j.status = .failed) ∧
  (j.completedAt ≠ none ↔ (j.status = .completed ∨ j.status = .failed))

/-- A job record that has not yet reached a terminal transition: no
results, no error, no completion time, status `Pending` or
`Processing`. -/
def preTerminal (j : ClipJobRec) : Prop :=
  j.generatedClips = [] ∧ j.errorMessage = none ∧ j.completedAt = none ∧
  (j.status = .pending ∨ j.status = .processing)

/-- The non-terminal mutations of a pipeline trace: progress updates to
`Processing` and the input-path write. -/
def benignMut (m : JobMut) : Prop :=
  (∃ msg, m = .setStatus .processing msg) ∨ (∃ p, m = .setInput p)

/-- Stage 1 resolves the input: the download branch returns a path, or
the local-file branch finds the file. -/
def stage1Resolves (env : PipelineEnv) : Prop :=
  if env.isUrl then ∃ p, env.download = .ok p else env.localExists = true

/-- The message of the exception that reaches the pipeline's top-level
handler, read off the trace: the final mutation when it is a failure. -/
def pipelineFailureMsg (outputDir jobId videoPath : String)
    (env : PipelineEnv) : Option String :=
  match (pipelineTrace outputDir jobId videoPath env).getLast? with
  | some (.failure m) => some m
  | _ => none

/-- Total bytes of the chunk events of a body. -/
def totalBytes : List DlEvent → Nat
  | [] => 0
  | .chunk n :: rest => n + totalBytes rest
  | _ :: rest => totalBytes rest

/-- A body that streams without network or write errors. -/
def allChunks (events : List DlEvent) : Prop :=
  ∀ e ∈ events, ∃ n, e = DlEvent.chunk n

/-- Spec §4.1 filename priority (1): the filename hinted by the
content-disposition header, as the code extracts it — the piece after
`filename=`, stripped of quotes, when non-empty. -/
def cdFilenameHint (cd : String) : Option String :=
  if containsSub cd "filename" then
    match splitSecondPiece cd "filename=" with
    | none => none
    | some part =>
      let fn := stripChars part quoteChars
      if fn != "" then some fn else none
  else none

/-- Spec §4.1 filename priority (2): the URL path's basename when it has
an extension. -/
def urlBasenameWithExt (urlPath : String) : Option String :=
  if urlPath != "" then
    let name := pathBasename urlPath
    if name != "" && containsSub name "." then some name else none
  else none

/-! ## Store lemmas -/

theorem dbFind_replaceFirst (db : List ClipJobRec) (jobId : String)
    (f : ClipJobRec → ClipJobRec) (hf : ∀ j, (f j).jobId = j.jobId) :
    dbFind (replaceFirst db jobId f) jobId = (dbFind db jobId).map f := by
  induction db with
  | nil => rfl
  | cons j rest ih =>
    by_cases h : j.jobId == jobId
    · simp [dbFind, replaceFirst, List.find?, h, hf j]
    · simp only [replaceFirst, h, if_neg, Bool.false_eq_true, not_false_iff,
        ite_false]
      simpa [dbFind, List.find?, h] using ih

theorem replaceFirst_of_not_found (db : List ClipJobRec) (jobId : String)
    (f : ClipJobRec → ClipJobRec) (h : dbFind db jobId = none) :
    replaceFirst db jobId f = db := by
  induction db with
  | nil => rfl
  | cons j rest ih =>
    simp only [dbFind, List.find?] at h
    by_cases hj : j.jobId == jobId
    · simp [hj] at h
    · simp only [hj] at h
      simp [replaceFirst, hj, ih h]

theorem applyMut_jobId (now : Nat) (m : JobMut) (j : ClipJobRec) :
    (applyMut now m j).jobId = j.jobId := by
  cases m <;> rfl

theorem dbFind_foldl_runMut (jobId : String) (now : Nat)
    (l : List JobMut) (db : List ClipJobRec) :
    dbFind (l.foldl (runMut jobId now) db) jobId =
      (dbFind db jobId).map (applyTrace now l) := by
  induction l generalizing db with
  | nil => cases h : dbFind db jobId <;> simp [applyTrace, h]
  | cons m rest ih =>
    rw [List.foldl_cons, ih]
    rw [show runMut jobId now db m = replaceFirst db jobId (applyMut now m)
      from rfl]
    rw [dbFind_replaceFirst db jobId _ (applyMut_jobId now m)]
    cases h : dbFind db jobId <;> simp [applyTrace, h]

/-! ## Trace structure lemmas -/

theorem benign_setStatus (msg : String) :
    benignMut (.setStatus .processing msg) := Or.inl ⟨msg, rfl⟩

theorem benign_setInput (p : String) : benignMut (.setInput p) :=
  Or.inr ⟨p, rfl⟩

/-- A terminal mutation: a successful-completion write with a non-empty
clips list, or a failure write. -/
def terminalMut (t : JobMut) : Prop :=
  (∃ g, t = JobMut.success g ∧ g ≠ []) ∨ ∃ msg, t = JobMut.failure msg

theorem pipelineRest_shape (d j : String) (env : PipelineEnv) :
    ∃ bs t, pipelineRest d j env = bs ++ [t] ∧
      (∀ m ∈ bs, benignMut m) ∧ terminalMut t := by
  obtain ⟨u, dl, le, tr, fc, mf, ok⟩ := env
  cases tr with
  | error e =>
    refine ⟨[.setStatus .processing "Transcrevendo vídeo com WhisperX..."],
      .failure ("Transcription failed: " ++ e), rfl, ?_, Or.inr ⟨_, rfl⟩⟩
    intro m hm
    rw [List.mem_singleton] at hm
    subst hm
    exact benign_setStatus _
  | ok _ =>
    cases fc with
    | error e =>
      refine ⟨[.setStatus .processing "Transcrevendo vídeo com WhisperX...",
        .setStatus .processing "Detectando clips com TextTiling..."],
        .failure ("Clip finding failed: " ++ e), rfl, ?_, Or.inr ⟨_, rfl⟩⟩
      intro m hm
      rcases List.mem_cons.mp hm with h | hm
      · subst h; exact benign_setStatus _
      · rw [List.mem_singleton] at hm; subst hm; exact benign_setStatus _
    | ok clips =>
      by_cases hclips : clips.isEmpty
      · refine ⟨[.setStatus .processing "Transcrevendo vídeo com WhisperX...",
          .setStatus .processing "Detectando clips com TextTiling..."],
          .failure "No clips detected in transcription", ?_, ?_,
          Or.inr ⟨_, rfl⟩⟩
        · simp [pipelineRest, hclips]
        · intro m hm
          rcases List.mem_cons.mp hm with h | hm
          · subst h; exact benign_setStatus _
          · rw [List.mem_singleton] at hm; subst hm; exact benign_setStatus _
      · have hb : ∀ m ∈
            [JobMut.setStatus .processing "Transcrevendo vídeo com WhisperX...",
             JobMut.setStatus .processing "Detectando clips com TextTiling...",
             JobMut.setStatus .processing
               ("Gerando " ++ toString clips.length ++ " clips...")],
            benignMut m := by
          intro m hm
          rcases List.mem_cons.mp hm with h | hm
          · subst h; exact benign_setStatus _
          rcases List.mem_cons.mp hm with h | hm
          · subst h; exact benign_setStatus _
          rw [List.mem_singleton] at hm
          subst hm; exact benign_setStatus _
        cases mf with
        | error e =>
          exact ⟨_, .failure e, by simp [pipelineRest, hclips], hb,
            Or.inr ⟨_, rfl⟩⟩
        | ok _ =>
          by_cases hgen : (trimClips d j clips ok).isEmpty
          · exact ⟨_, .failure "Failed to generate any clips",
              by simp [pipelineRest, hclips, hgen], hb, Or.inr ⟨_, rfl⟩⟩
          · refine ⟨_, .success (trimClips d j clips ok),
              by simp [pipelineRest, hclips, hgen], hb,
              Or.inl ⟨_, rfl, ?_⟩⟩
            simpa [List.isEmpty_iff] using hgen

theorem pipelineTrace_shape (d j v : String) (env : PipelineEnv) :
    ∃ bs t, pipelineTrace d j v env = bs ++ [t] ∧
      (∀ m ∈ bs, benignMut m) ∧ terminalMut t := by
  obtain ⟨bs, t, heq, hb, ht⟩ := pipelineRest_shape d j env
  by_cases hu : env.isUrl
  · cases hdl : env.download with
    | error e =>
      refine ⟨[.setStatus .processing "Baixando vídeo da web..."],
        .failure ("Download failed: " ++ e),
        by simp [pipelineTrace, hu, hdl], ?_, Or.inr ⟨_, rfl⟩⟩
      intro m hm
      rw [List.mem_singleton] at hm
      subst hm
      exact benign_setStatus _
    | ok p =>
      refine ⟨.setStatus .processing "Baixando vídeo da web..." ::
        .setInput p :: bs, t, by simp [pipelineTrace, hu, hdl, heq], ?_, ht⟩
      intro m hm
      rcases List.mem_cons.mp hm with h | hm
      · subst h; exact benign_setStatus _
      rcases List.mem_cons.mp hm with h | hm
      · subst h; exact benign_setInput _
      exact hb m hm
  · by_cases hle : env.localExists
    · refine ⟨.setInput v :: bs, t,
        by simp [pipelineTrace, hu, hle, heq], ?_, ht⟩
      intro m hm
      rcases List.mem_cons.mp hm with h | hm
      · subst h; exact benign_setInput _
      exact hb m hm
    · refine ⟨[], .failure ("Input video file not found: " ++ v),
        by simp [pipelineTrace, hu, hle], ?_, Or.inr ⟨_, rfl⟩⟩
      intro m hm
      exact absurd hm (List.not_mem_nil m)

theorem applyTrace_append (now : Nat) (l₁ l₂ : List JobMut) (j : ClipJobRec) :
    applyTrace now (l₁ ++ l₂) j = applyTrace now l₂ (applyTrace now l₁ j) := by
  simp [applyTrace, List.foldl_append]

theorem benign_preserves (now : Nat) (l : List JobMut) (j : ClipJobRec)
    (hb : ∀ m ∈ l, benignMut m) (hp : preTerminal j) :
    preTerminal (applyTrace now l j) := by
  induction l generalizing j with
  | nil => exact hp
  | cons m rest ih =>
    have hm := hb m (List.mem_cons_self m rest)
    have hrest : ∀ m' ∈ rest, benignMut m' :=
      fun m' hm' => hb m' (List.mem_cons_of_mem m hm')
    have hstep : preTerminal (applyMut now m j) := by
      obtain ⟨hc, he, hca, hst⟩ := hp
      rcases hm with ⟨msg, rfl⟩ | ⟨p, rfl⟩
      · exact ⟨hc, he, hca, Or.inr rfl⟩
      · exact ⟨hc, he, hca, hst⟩
    have : applyTrace now (m :: rest) j = applyTrace now rest (applyMut now m j) := by
      simp [applyTrace]
    rw [this]
    exact ih _ hrest hstep

theorem preTerminal_jobInvariant (j : ClipJobRec) (hp : preTerminal j) :
    jobInvariant j := by
  obtain ⟨hc, he, hca, hst⟩ := hp
  refine ⟨fun h => absurd hc h, fun h => absurd he h, ?_⟩
  constructor
  · intro h; exact absurd hca h
  · intro h
    rcases hst with h' | h' <;> rcases h with h | h <;> simp [h'] at h

theorem terminal_apply (now : Nat) (t : JobMut) (j : ClipJobRec)
    (hp : preTerminal j) (ht : terminalMut t) :
    jobInvariant (applyMut now t j) := by
  obtain ⟨hc, he, hca, _⟩ := hp
  rcases ht with ⟨g, rfl, hg⟩ | ⟨msg, rfl⟩
  · exact ⟨fun _ => rfl, fun h => absurd he h,
      by simp [applyMut]⟩
  · refine ⟨fun h => absurd hc h, fun _ => rfl, by simp [applyMut]⟩

/-! ## Claim C1 -/

/-- C1: for every job run by the pipeline, the background run is a total
function (no exception escapes the `try`/`except` boundary — `generateClip`
returns a session in every case); the final record is terminal, never
`Processing`; and whenever a stage raised, the final record is `Failed`
with `errorMessage` equal to the message of the exception that reached
the top-level handler. -/
theorem pipeline_top_level_failure_handling
    (db : List ClipJobRec) (d jobId v : String) (env : PipelineEnv)
    (now : Nat) (j₀ : ClipJobRec) (h₀ : dbFind db jobId = some j₀) :
    ∃ j', dbFind (generateClip db d jobId v env now) jobId = some j' ∧
      (j'.status = .completed ∨ j'.status = .failed) ∧
      j'.status ≠ .processing ∧
      (∀ msg, pipelineFailureMsg d jobId v env = some msg →
        j'.status = .failed ∧ j'.errorMessage = some msg) := by
  obtain ⟨bs, t, heq, hb, ht⟩ := pipelineTrace_shape d jobId v env
  have hfind : dbFind (generateClip db d jobId v env now) jobId =
      some (applyTrace now (pipelineTrace d jobId v env) j₀) := by
    rw [generateClip, dbFind_foldl_runMut, h₀]
    rfl
  rw [heq, applyTrace_append] at hfind
  have happ : applyTrace now [t] (applyTrace now bs j₀) =
      applyMut now t (applyTrace now bs j₀) := by
    simp [applyTrace]
  rw [happ] at hfind
  have hlast : (pipelineTrace d jobId v env).getLast? = some t := by
    rw [heq, List.getLast?_concat]
  refine ⟨applyMut now t (applyTrace now bs j₀), hfind, ?_, ?_, ?_⟩
  · rcases ht with ⟨g, rfl, _⟩ | ⟨msg, rfl⟩
    · exact Or.inl rfl
    · exact Or.inr rfl
  · rcases ht with ⟨g, rfl, _⟩ | ⟨msg, rfl⟩ <;> simp [applyMut]
  · intro msg hmsg
    rw [pipelineFailureMsg, hlast] at hmsg
    rcases ht with ⟨g, rfl, _⟩ | ⟨m, rfl⟩
    · exact absurd hmsg (by simp)
    · simp only at hmsg
      injection hmsg with h
      subst h
      exact ⟨rfl, rfl⟩

/-- C1 witness: a concrete run (local file missing) ends `Failed` with the
`FileNotFoundError` message and a non-`Processing` status. -/
theorem pipeline_top_level_failure_handling_witness :
    ∃ j', dbFind
        (generateClip [newClipJob "j1" "nope.mp4" 0] "./clips" "j1" "nope.mp4"
          ⟨false, .ok "", false, .ok (), .ok [], .ok (), fun _ => true⟩ 5)
        "j1" = some j' ∧
      (j'.status = .completed ∨ j'.status = .failed) ∧
      j'.status ≠ .processing ∧
      (∀ msg, pipelineFailureMsg "./clips" "j1" "nope.mp4"
          ⟨false, .ok "", false, .ok (), .ok [], .ok (), fun _ => true⟩ =
          some msg →
        j'.status = .failed ∧ j'.errorMessage = some msg) :=
  pipeline_top_level_failure_handling
    [newClipJob "j1" "nope.mp4" 0] "./clips" "j1" "nope.mp4"
    ⟨false, .ok "", false, .ok (), .ok [], .ok (), fun _ => true⟩ 5
    (newClipJob "j1" "nope.mp4" 0) rfl

/-! ## Claim C2 -/

theorem newClipJob_preTerminal (jobId v : String) (now : Nat) :
    preTerminal (newClipJob jobId v now) :=
  ⟨rfl, rfl, rfl, Or.inl rfl⟩

/-- C2: along any sequence of pipeline transitions — every prefix `l₁` of
the mutation trace of a run, applied to a session holding the freshly
created job record — the job record satisfies the §3 invariant: non-empty
`results` only when `Completed`, non-null `errorMessage` only when
`Failed`, and `completedAt` set iff the status is terminal. -/
theorem job_record_invariant
    (db : List ClipJobRec) (d jobId v v₀ : String) (env : PipelineEnv)
    (now now₀ : Nat) (l₁ l₂ : List JobMut)
    (h₀ : dbFind db jobId = some (newClipJob jobId v₀ now₀))
    (hsplit : pipelineTrace d jobId v env = l₁ ++ l₂) :
    ∀ j', dbFind (l₁.foldl (runMut jobId now) db) jobId = some j' →
      jobInvariant j' := by
  intro j' hj'
  rw [dbFind_foldl_runMut, h₀] at hj'
  have hj'eq : j' = applyTrace now l₁ (newClipJob jobId v₀ now₀) := by
    injection hj' with h
    exact h.symm
  subst hj'eq
  obtain ⟨bs, t, heq, hb, ht⟩ := pipelineTrace_shape d jobId v env
  rw [heq] at hsplit
  cases l₂ with
  | nil =>
    rw [List.append_nil] at hsplit
    subst hsplit
    rw [applyTrace_append]
    have hpre := benign_preserves now bs _ hb
      (newClipJob_preTerminal jobId v₀ now₀)
    have happ : applyTrace now [t] (applyTrace now bs
        (newClipJob jobId v₀ now₀)) =
        applyMut now t (applyTrace now bs (newClipJob jobId v₀ now₀)) := by
      simp [applyTrace]
    rw [happ]
    exact terminal_apply now t _ hpre ht
  | cons x l₂' =>
    have hlen : l₁.length ≤ bs.length := by
      have := congrArg List.length hsplit
      simp [List.length_append] at this
      omega
    have hpre1 : l₁ <+: bs ++ [t] := ⟨x :: l₂', hsplit.symm⟩
    have hpre2 : bs <+: bs ++ [t] := ⟨[t], rfl⟩
    have hpre : l₁ <+: bs :=
      List.prefix_of_prefix_length_le hpre1 hpre2 hlen
    have hb1 : ∀ m ∈ l₁, benignMut m :=
      fun m hm => hb m (hpre.subset hm)
    exact preTerminal_jobInvariant _
      (benign_preserves now l₁ _ hb1 (newClipJob_preTerminal jobId v₀ now₀))

/-- C2 witness: the invariant holds at the concrete final record of a
successful run (the full trace as prefix, empty remainder). -/
theorem job_record_invariant_witness :
    jobInvariant
      { jobId := "j1", status := .completed, inputFile := "v.mp4",
        statusMessage := "Concluído: 1 clips gerados",
        generatedClips := [mkClipMeta "./clips" "j1" 1 ⟨0, 1⟩],
        errorMessage := none, createdAt := 0, updatedAt := 7,
        completedAt := some 7 } :=
  job_record_invariant [newClipJob "j1" "v.mp4" 0] "./clips" "j1" "v.mp4"
    "v.mp4"
    ⟨false, .ok "", true, .ok (), .ok [⟨0, 1⟩], .ok (), fun _ => true⟩
    7 0
    (pipelineTrace "./clips" "j1" "v.mp4"
      ⟨false, .ok "", true, .ok (), .ok [⟨0, 1⟩], .ok (), fun _ => true⟩)
    [] rfl (List.append_nil _).symm
    { jobId := "j1", status := .completed, inputFile := "v.mp4",
      statusMessage := "Concluído: 1 clips gerados",
      generatedClips := [mkClipMeta "./clips" "j1" 1 ⟨0, 1⟩],
      errorMessage := none, createdAt := 0, updatedAt := 7,
      completedAt := some 7 } rfl

/-! ## Claim C3 -/

theorem trimClipsGo_eq (d j : String) (ok : Nat → Bool) :
    ∀ (clips : List Segment) (i : Nat),
      trimClipsGo d j i ok clips =
        ((List.enumFrom i clips).filter (fun p => ok p.1)).map
          (fun p => mkClipMeta d j p.1 p.2) := by
  intro clips
  induction clips with
  | nil => intro i; rfl
  | cons c rest ih =>
    intro i
    by_cases h : ok i <;>
      simp [trimClipsGo, List.enumFrom, List.filter, h, ih (i + 1)]

/-- The trim fan-out computes exactly the spec-side list of successful
artifacts. -/
theorem trimClips_eq_successfulArtifacts (d j : String)
    (clips : List Segment) (ok : Nat → Bool) :
    trimClips d j clips ok = successfulArtifacts d j clips ok :=
  trimClipsGo_eq d j ok clips 1

/-- Stages 2-4 resolved: the final record of a run that reaches the trim
fan-out. -/
theorem generateClip_stage4
    (db : List ClipJobRec) (d jobId v : String) (env : PipelineEnv)
    (now : Nat) (j₀ : ClipJobRec) (clips : List Segment)
    (h₀ : dbFind db jobId = some j₀)
    (hs1 : stage1Resolves env)
    (htr : env.transcribe = .ok ())
    (hfc : env.findClips = .ok clips)
    (hne : clips ≠ [])
    (hmf : env.mediaFile = .ok ()) :
    ∃ j' bs, dbFind (generateClip db d jobId v env now) jobId = some j' ∧
      j' = applyMut now
        (if (trimClips d jobId clips env.trimOk).isEmpty then
          .failure "Failed to generate any clips"
        else .success (trimClips d jobId clips env.trimOk))
        (applyTrace now bs j₀) := by
  have hcl : clips.isEmpty = false := by
    cases hcl : clips.isEmpty
    · rfl
    · exact absurd (List.isEmpty_iff.mp hcl) hne
  have hrest : pipelineRest d jobId env =
      [.setStatus .processing "Transcrevendo vídeo com WhisperX...",
       .setStatus .processing "Detectando clips com TextTiling...",
       .setStatus .processing
         ("Gerando " ++ toString clips.length ++ " clips...")] ++
      [if (trimClips d jobId clips env.trimOk).isEmpty then
        .failure "Failed to generate any clips"
      else .success (trimClips d jobId clips env.trimOk)] := by
    rw [pipelineRest, htr, hfc, hmf]
    simp only [hcl, Bool.false_eq_true, if_false, List.cons_append,
      List.nil_append]
    by_cases hgen : (trimClips d jobId clips env.trimOk).isEmpty <;>
      simp [hgen]
  have key : ∀ bs : List JobMut,
      (pipelineTrace d jobId v env = bs ++ pipelineRest d jobId env) →
      ∃ j' bs', dbFind (generateClip db d jobId v env now) jobId = some j' ∧
        j' = applyMut now
          (if (trimClips d jobId clips env.trimOk).isEmpty then
            .failure "Failed to generate any clips"
          else .success (trimClips d jobId clips env.trimOk))
          (applyTrace now bs' j₀) := by
    intro bs htrace
    refine ⟨_, bs ++
      [JobMut.setStatus .processing "Transcrevendo vídeo com WhisperX...",
       JobMut.setStatus .processing "Detectando clips com TextTiling...",
       JobMut.setStatus .processing
         ("Gerando " ++ toString clips.length ++ " clips...")], ?_, rfl⟩
    rw [generateClip, dbFind_foldl_runMut, h₀, htrace, hrest]
    rw [show bs ++
      ([JobMut.setStatus .processing "Transcrevendo vídeo com WhisperX...",
        JobMut.setStatus .processing "Detectando clips com TextTiling...",
        JobMut.setStatus .processing
          ("Gerando " ++ toString clips.length ++ " clips...")] ++
       [if (trimClips d jobId clips env.trimOk).isEmpty then
          JobMut.failure "Failed to generate any clips"
        else JobMut.success (trimClips d jobId clips env.trimOk)]) =
      (bs ++
       [JobMut.setStatus .processing "Transcrevendo vídeo com WhisperX...",
        JobMut.setStatus .processing "Detectando clips com TextTiling...",
        JobMut.setStatus .processing
          ("Gerando " ++ toString clips.length ++ " clips...")]) ++
      [if (trimClips d jobId clips env.trimOk).isEmpty then
         JobMut.failure "Failed to generate any clips"
       else JobMut.success (trimClips d jobId clips env.trimOk)]
      from by simp]
    rw [applyTrace_append]
    simp [applyTrace]
  rw [stage1Resolves] at hs1
  by_cases hu : env.isUrl
  · rw [if_pos hu] at hs1
    obtain ⟨p, hdl⟩ := hs1
    obtain ⟨j', bs', h1, h2⟩ := key
      [.setStatus .processing "Baixando vídeo da web...", .setInput p]
      (by rw [pipelineTrace]; simp [hu, hdl])
    exact ⟨j', bs', h1, h2⟩
  · rw [if_neg hu] at hs1
    obtain ⟨j', bs', h1, h2⟩ := key [.setInput v]
      (by rw [pipelineTrace]; simp [hu, hs1])
    exact ⟨j', bs', h1, h2⟩

/-- C3: in the trim fan-out, segments are attempted in order with
per-item failures skipped (the results are exactly the artifacts of the
successful trims in the segments' original relative order,
`successfulArtifacts`); a run that reaches the fan-out ends `Failed` with
`"Failed to generate any clips"` when zero artifacts were produced, and
`Completed` with exactly those artifacts otherwise. -/
theorem trim_fanout_policy
    (db : List ClipJobRec) (d jobId v : String) (env : PipelineEnv)
    (now : Nat) (j₀ : ClipJobRec) (clips : List Segment)
    (h₀ : dbFind db jobId = some j₀)
    (hs1 : stage1Resolves env)
    (htr : env.transcribe = .ok ())
    (hfc : env.findClips = .ok clips)
    (hne : clips ≠ [])
    (hmf : env.mediaFile = .ok ()) :
    trimClips d jobId clips env.trimOk =
      successfulArtifacts d jobId clips env.trimOk ∧
    (trimClips d jobId clips env.trimOk = [] →
      ∃ j', dbFind (generateClip db d jobId v env now) jobId = some j' ∧
        j'.status = .failed ∧
        j'.errorMessage = some "Failed to generate any clips") ∧
    (trimClips d jobId clips env.trimOk ≠ [] →
      ∃ j', dbFind (generateClip db d jobId v env now) jobId = some j' ∧
        j'.status = .completed ∧
        j'.generatedClips = successfulArtifacts d jobId clips env.trimOk) := by
  obtain ⟨j', bs, hfind, heq⟩ :=
    generateClip_stage4 db d jobId v env now j₀ clips h₀ hs1 htr hfc hne hmf
  refine ⟨trimClips_eq_successfulArtifacts d jobId clips env.trimOk, ?_, ?_⟩
  · intro hgen
    have hgenb : (trimClips d jobId clips env.trimOk).isEmpty = true := by
      rw [hgen]; rfl
    rw [if_pos hgenb] at heq
    refine ⟨j', hfind, ?_, ?_⟩ <;> rw [heq] <;> simp [applyMut]
  · intro hgen
    have hgenb : ¬ (trimClips d jobId clips env.trimOk).isEmpty = true := by
      cases hg : (trimClips d jobId clips env.trimOk).isEmpty
      · exact Bool.false_ne_true
      · exact absurd (List.isEmpty_iff.mp hg) hgen
    rw [if_neg hgenb] at heq
    refine ⟨j', hfind, ?_, ?_⟩
    · rw [heq]
      simp [applyMut]
    · rw [heq]
      simp [applyMut,
        trimClips_eq_successfulArtifacts d jobId clips env.trimOk]

/-- C3 witness (spec scenario C): three segments, the trim of segment 2
fails — the job completes with exactly the artifacts of segments 1 and 3,
in that order. -/
theorem trim_fanout_policy_witness :
    trimClips "./clips" "j1" [⟨0, 1⟩, ⟨1, 2⟩, ⟨2, 3⟩] (fun i => i != 2) =
      successfulArtifacts "./clips" "j1" [⟨0, 1⟩, ⟨1, 2⟩, ⟨2, 3⟩]
        (fun i => i != 2) ∧
    (trimClips "./clips" "j1" [⟨0, 1⟩, ⟨1, 2⟩, ⟨2, 3⟩] (fun i => i != 2) =
        [] →
      ∃ j', dbFind
          (generateClip [newClipJob "j1" "v.mp4" 0] "./clips" "j1" "v.mp4"
            ⟨false, .ok "", true, .ok (), .ok [⟨0, 1⟩, ⟨1, 2⟩, ⟨2, 3⟩],
              .ok (), fun i => i != 2⟩ 7) "j1" = some j' ∧
        j'.status = .failed ∧
        j'.errorMessage = some "Failed to generate any clips") ∧
    (trimClips "./clips" "j1" [⟨0, 1⟩, ⟨1, 2⟩, ⟨2, 3⟩] (fun i => i != 2) ≠
        [] →
      ∃ j', dbFind
          (generateClip [newClipJob "j1" "v.mp4" 0] "./clips" "j1" "v.mp4"
            ⟨false, .ok "", true, .ok (), .ok [⟨0, 1⟩, ⟨1, 2⟩, ⟨2, 3⟩],
              .ok (), fun i => i != 2⟩ 7) "j1" = some j' ∧
        j'.status = .completed ∧
        j'.generatedClips =
          successfulArtifacts "./clips" "j1" [⟨0, 1⟩, ⟨1, 2⟩, ⟨2, 3⟩]
            (fun i => i != 2)) :=
  trim_fanout_policy [newClipJob "j1" "v.mp4" 0] "./clips" "j1" "v.mp4"
    ⟨false, .ok "", true, .ok (), .ok [⟨0, 1⟩, ⟨1, 2⟩, ⟨2, 3⟩], .ok (),
      fun i => i != 2⟩ 7
    (newClipJob "j1" "v.mp4" 0) [⟨0, 1⟩, ⟨1, 2⟩, ⟨2, 3⟩] rfl
    (by simp [stage1Resolves]) rfl rfl (by simp) rfl

/-! ## Download-loop lemmas -/

theorem dlLoop_exceed (maxMB : Nat) :
    ∀ (events : List DlEvent) (size : Nat), allChunks events →
      size ≤ mbLimit maxMB → size + totalBytes events > mbLimit maxMB →
      dlLoop maxMB size events =
        (.error ("File exceeded " ++ toString maxMB ++ "MB limit"), none) := by
  intro events
  induction events with
  | nil =>
    intro size _ hle hgt
    rw [totalBytes] at hgt
    omega
  | cons e rest ih =>
    intro size hall hle hgt
    obtain ⟨n, rfl⟩ := hall (e) (List.mem_cons_self e rest)
    have hrest : allChunks rest :=
      fun e' he' => hall e' (List.mem_cons_of_mem _ he')
    rw [totalBytes] at hgt
    by_cases hz : n = 0
    · subst hz
      rw [dlLoop]
      simp only [beq_self_eq_true, if_true]
      exact ih size hrest hle (by omega)
    · rw [dlLoop]
      simp only [beq_iff_eq, hz, if_false]
      by_cases hlim : size + n > mbLimit maxMB
      · rw [if_pos hlim]
      · rw [if_neg hlim]
        exact ih (size + n) hrest (by omega) (by omega)

theorem dlLoop_within (maxMB : Nat) :
    ∀ (events : List DlEvent) (size : Nat), allChunks events →
      size + totalBytes events ≤ mbLimit maxMB →
      dlLoop maxMB size events = (.ok (), some (size + totalBytes events)) := by
  intro events
  induction events with
  | nil =>
    intro size _ _
    rw [totalBytes, dlLoop]
    simp
  | cons e rest ih =>
    intro size hall hle
    obtain ⟨n, rfl⟩ := hall e (List.mem_cons_self e rest)
    have hrest : allChunks rest :=
      fun e' he' => hall e' (List.mem_cons_of_mem _ he')
    rw [totalBytes] at hle ⊢
    by_cases hz : n = 0
    · subst hz
      rw [dlLoop]
      simp only [beq_self_eq_true, if_true]
      have := ih size hrest (by omega)
      rw [this]
      simp
    · rw [dlLoop]
      simp only [beq_iff_eq, hz, if_false]
      rw [if_neg (by omega)]
      have := ih (size + n) hrest (by omega)
      rw [this]
      congr 2
      omega

theorem dlLoop_ok_some (maxMB : Nat) :
    ∀ (events : List DlEvent) (size : Nat) (u : Unit) (f : Option Nat),
      dlLoop maxMB size events = (.ok u, f) → ∃ n, f = some n := by
  intro events
  induction events with
  | nil =>
    intro size u f h
    rw [dlLoop] at h
    exact ⟨size, (congrArg Prod.snd h).symm⟩
  | cons e rest ih =>
    intro size u f h
    cases e with
    | chunk n =>
      rw [dlLoop] at h
      by_cases hz : n == 0
      · rw [if_pos hz] at h
        exact ih size u f h
      · rw [if_neg hz] at h
        by_cases hlim : size + n > mbLimit maxMB
        · rw [if_pos hlim] at h
          exact absurd (congrArg Prod.fst h) (by simp)
        · rw [if_neg hlim] at h
          exact ih (size + n) u f h
    | netErr m =>
      rw [dlLoop] at h
      exact absurd (congrArg Prod.fst h) (by simp)
    | writeErr m =>
      rw [dlLoop] at h
      exact absurd (congrArg Prod.fst h) (by simp)

/-- A mid-stream error event after in-limit chunks: the loop stops with
that error and the partial file (of the bytes written so far) still on
disk. -/
theorem dlLoop_err_event (maxMB : Nat) :
    ∀ (pre : List DlEvent) (size : Nat) (e : DlEvent) (m : String)
      (rest : List DlEvent),
      (e = .netErr m ∨ e = .writeErr m) → allChunks pre →
      size + totalBytes pre ≤ mbLimit maxMB →
      dlLoop maxMB size (pre ++ e :: rest) =
        (.error m, some (size + totalBytes pre)) := by
  intro pre
  induction pre with
  | nil =>
    intro size e m rest he _ _
    rcases he with rfl | rfl <;> simp [dlLoop, totalBytes]
  | cons c pre' ih =>
    intro size e m rest he hall hle
    obtain ⟨n, rfl⟩ := hall c (List.mem_cons_self c pre')
    have hpre' : allChunks pre' :=
      fun e' he' => hall e' (List.mem_cons_of_mem _ he')
    rw [totalBytes] at hle
    rw [List.cons_append, dlLoop]
    by_cases hz : n = 0
    · subst hz
      simp only [beq_self_eq_true, if_true]
      have := ih size e m rest he hpre' (by omega)
      rw [this]
      simp [totalBytes]
    · simp only [beq_iff_eq, hz, if_false]
      rw [if_neg (by omega)]
      have := ih (size + n) e m rest he hpre' (by omega)
      rw [this]
      simp [totalBytes]
      omega

/-! ## Claim C4 -/

/-- C4: a download whose `Content-Length` header exceeds the configured
limit fails with no cache file ever created (the rejection happens before
`open`); a download without `Content-Length` whose streamed body exceeds
the limit fails with no cache file remaining (the partial file is
unlinked before the `ValueError` is raised). -/
theorem download_size_limit_enforcement
    (cacheDir urlPath timestamp : String) (resp : DlResponse) (maxMB : Nat)
    (hok : resp.okStatus = true) :
    (∀ cl, resp.contentLength = some cl → cl > mbLimit maxMB →
      (∃ e, (downloadVideo cacheDir true urlPath timestamp resp
          maxMB).result = .error e) ∧
      (downloadVideo cacheDir true urlPath timestamp resp
          maxMB).cacheFile = none) ∧
    (resp.contentLength = none → allChunks resp.events →
      totalBytes resp.events > mbLimit maxMB →
      (∃ e, (downloadVideo cacheDir true urlPath timestamp resp
          maxMB).result = .error e) ∧
      (downloadVideo cacheDir true urlPath timestamp resp
          maxMB).cacheFile = none) := by
  obtain ⟨okS, clen, cd, ct, events⟩ := resp
  simp only at hok
  subst hok
  constructor
  · intro cl hcl hgt
    simp only at hcl
    subst hcl
    have hred : downloadVideo cacheDir true urlPath timestamp
        ⟨true, some cl, cd, ct, events⟩ maxMB =
        if cl > mbLimit maxMB then
          ⟨.error ("File too large: > " ++ toString maxMB ++ "MB limit"),
           none⟩
        else downloadVideo.downloadStream cacheDir urlPath timestamp
          ⟨true, some cl, cd, ct, events⟩ maxMB := rfl
    rw [hred, if_pos hgt]
    exact ⟨⟨_, rfl⟩, rfl⟩
  · intro hcl hall hgt
    simp only at hcl
    subst hcl
    dsimp only at hall hgt
    have hred : downloadVideo cacheDir true urlPath timestamp
        ⟨true, none, cd, ct, events⟩ maxMB =
        downloadVideo.downloadStream cacheDir urlPath timestamp
          ⟨true, none, cd, ct, events⟩ maxMB := rfl
    rw [hred, downloadVideo.downloadStream]
    simp only
    cases hfn : generateFilename cd urlPath timestamp ct with
    | error e => exact ⟨⟨e, rfl⟩, rfl⟩
    | ok fn =>
      rw [dlLoop_exceed maxMB events 0 hall (Nat.zero_le _) (by omega)]
      exact ⟨⟨_, rfl⟩, rfl⟩

/-- C4 witness: a header advertising 3 GB against a 2048 MB limit is
rejected with no file; a body of 2049 MB with no header aborts with the
partial file removed. -/
theorem download_size_limit_enforcement_witness :
    ((∃ e, (downloadVideo "./temp_uploads" true "/v.mp4" "ts"
        ⟨true, some 3221225472, "", "", []⟩ 2048).result = .error e) ∧
      (downloadVideo "./temp_uploads" true "/v.mp4" "ts"
        ⟨true, some 3221225472, "", "", []⟩ 2048).cacheFile = none) ∧
    ((∃ e, (downloadVideo "./temp_uploads" true "/v.mp4" "ts"
        ⟨true, none, "", "", [.chunk 2148532224]⟩ 2048).result = .error e) ∧
      (downloadVideo "./temp_uploads" true "/v.mp4" "ts"
        ⟨true, none, "", "", [.chunk 2148532224]⟩ 2048).cacheFile = none) :=
  ⟨(download_size_limit_enforcement "./temp_uploads" "/v.mp4" "ts"
      ⟨true, some 3221225472, "", "", []⟩ 2048 rfl).1 3221225472 rfl
      (by norm_num [mbLimit]),
   (download_size_limit_enforcement "./temp_uploads" "/v.mp4" "ts"
      ⟨true, none, "", "", [.chunk 2148532224]⟩ 2048 rfl).2 rfl
      (by intro e he; simp at he; exact ⟨_, he⟩)
      (by norm_num [totalBytes, mbLimit])⟩

/-! ## Claim C5 -/

/-- C5 counterexample: a download that fails with a network error after
100 bytes were written leaves the 100-byte partial file in the cache —
the cleanup-on-any-failure the claim states does not happen (only the
size check unlinks). -/
theorem download_partial_cleanup_counterexample :
    (downloadVideo "./temp_uploads" true "/v.mp4" "ts"
      ⟨true, none, "", "", [.chunk 100, .netErr "Connection reset"]⟩
      2048).result = .error "Connection reset" ∧
    (downloadVideo "./temp_uploads" true "/v.mp4" "ts"
      ⟨true, none, "", "", [.chunk 100, .netErr "Connection reset"]⟩
      2048).cacheFile = some 100 := ⟨rfl, rfl⟩

/-- C5 amended: on success exactly one file is written to the cache
directory; a size-limit violation mid-stream removes the partial file;
but a network/protocol or file-write error mid-stream propagates with the
partial file left in place. -/
theorem download_partial_cleanup_amended
    (cacheDir urlPath timestamp : String) (resp : DlResponse) (maxMB : Nat) :
    (∀ p, (downloadVideo cacheDir true urlPath timestamp resp
        maxMB).result = .ok p →
      (∃ n, (downloadVideo cacheDir true urlPath timestamp resp
          maxMB).cacheFile = some n) ∧
      ∃ fn, p = cacheDir ++ "/" ++ fn) ∧
    (allChunks resp.events → totalBytes resp.events > mbLimit maxMB →
      (downloadVideo cacheDir true urlPath timestamp resp
          maxMB).cacheFile = none) ∧
    (∀ pre e m rest, resp.events = pre ++ e :: rest →
      (e = .netErr m ∨ e = .writeErr m) → allChunks pre →
      totalBytes pre ≤ mbLimit maxMB → resp.okStatus = true →
      (∀ cl, resp.contentLength = some cl → cl ≤ mbLimit maxMB) →
      (∃ fn, generateFilename resp.contentDisposition urlPath timestamp
        resp.contentType = .ok fn) →
      (downloadVideo cacheDir true urlPath timestamp resp
          maxMB).result = .error m ∧
      (downloadVideo cacheDir true urlPath timestamp resp
          maxMB).cacheFile = some (totalBytes pre)) := by
  obtain ⟨okS, clen, cd, ct, events⟩ := resp
  have hstream : ∀ clen',
      downloadVideo.downloadStream cacheDir urlPath timestamp
        ⟨okS, clen', cd, ct, events⟩ maxMB =
      match generateFilename cd urlPath timestamp ct with
      | .error e => ⟨.error e, none⟩
      | .ok filename =>
        match dlLoop maxMB 0 events with
        | (.ok _, fileState) =>
          ⟨.ok (cacheDir ++ "/" ++ filename), fileState⟩
        | (.error e, fileState) => ⟨.error e, fileState⟩ :=
    fun _ => rfl
  refine ⟨?_, ?_, ?_⟩
  · intro p hp
    cases okS with
    | false => exact absurd hp (by simp [downloadVideo])
    | true =>
      cases clen with
      | some cl =>
        have hred : downloadVideo cacheDir true urlPath timestamp
            ⟨true, some cl, cd, ct, events⟩ maxMB =
            if cl > mbLimit maxMB then
              ⟨.error ("File too large: > " ++ toString maxMB ++
                "MB limit"), none⟩
            else downloadVideo.downloadStream cacheDir urlPath timestamp
              ⟨true, some cl, cd, ct, events⟩ maxMB := rfl
        rw [hred] at hp ⊢
        by_cases hgt : cl > mbLimit maxMB
        · rw [if_pos hgt] at hp
          exact absurd hp (by simp)
        · rw [if_neg hgt] at hp ⊢
          rw [hstream] at hp ⊢
          cases hfn : generateFilename cd urlPath timestamp ct with
          | error e =>
            rw [hfn] at hp
            exact absurd hp (by simp)
          | ok fn =>
            rw [hfn] at hp
            cases hdl : dlLoop maxMB 0 events with
            | mk r f =>
              rw [hdl] at hp
              cases r with
              | error e => exact absurd hp (by simp)
              | ok u =>
                obtain ⟨n, rfl⟩ := dlLoop_ok_some maxMB events 0 u f hdl
                dsimp only at hp
                injection hp with hp
                exact ⟨⟨n, rfl⟩, fn, hp.symm⟩
      | none =>
        have hred : downloadVideo cacheDir true urlPath timestamp
            ⟨true, none, cd, ct, events⟩ maxMB =
            downloadVideo.downloadStream cacheDir urlPath timestamp
              ⟨true, none, cd, ct, events⟩ maxMB := rfl
        rw [hred] at hp ⊢
        rw [hstream] at hp ⊢
        cases hfn : generateFilename cd urlPath timestamp ct with
        | error e =>
          rw [hfn] at hp
          exact absurd hp (by simp)
        | ok fn =>
          rw [hfn] at hp
          cases hdl : dlLoop maxMB 0 events with
          | mk r f =>
            rw [hdl] at hp
            cases r with
            | error e => exact absurd hp (by simp)
            | ok u =>
              obtain ⟨n, rfl⟩ := dlLoop_ok_some maxMB events 0 u f hdl
              dsimp only at hp
              injection hp with hp
              exact ⟨⟨n, rfl⟩, fn, hp.symm⟩
  · intro hall hgt
    dsimp only at hall hgt
    cases okS with
    | false => simp [downloadVideo]
    | true =>
      cases clen with
      | some cl =>
        have hred : downloadVideo cacheDir true urlPath timestamp
            ⟨true, some cl, cd, ct, events⟩ maxMB =
            if cl > mbLimit maxMB then
              ⟨.error ("File too large: > " ++ toString maxMB ++
                "MB limit"), none⟩
            else downloadVideo.downloadStream cacheDir urlPath timestamp
              ⟨true, some cl, cd, ct, events⟩ maxMB := rfl
        rw [hred]
        by_cases hgt' : cl > mbLimit maxMB
        · rw [if_pos hgt']
        · rw [if_neg hgt', hstream]
          cases hfn : generateFilename cd urlPath timestamp ct with
          | error e => rfl
          | ok fn =>
            rw [dlLoop_exceed maxMB events 0 hall (Nat.zero_le _)
              (by omega)]
      | none =>
        have hred : downloadVideo cacheDir true urlPath timestamp
            ⟨true, none, cd, ct, events⟩ maxMB =
            downloadVideo.downloadStream cacheDir urlPath timestamp
              ⟨true, none, cd, ct, events⟩ maxMB := rfl
        rw [hred, hstream]
        cases hfn : generateFilename cd urlPath timestamp ct with
        | error e => rfl
        | ok fn =>
          rw [dlLoop_exceed maxMB events 0 hall (Nat.zero_le _)
            (by omega)]
  · intro pre e m rest hev he hall hle hok hcl hfn
    simp only at hev hok hcl hfn
    subst hok
    obtain ⟨fn, hfn⟩ := hfn
    subst hev
    have hloop : dlLoop maxMB 0 (pre ++ e :: rest) =
        (.error m, some (totalBytes pre)) := by
      have := dlLoop_err_event maxMB pre 0 e m rest he hall (by omega)
      simpa using this
    cases clen with
    | some cl =>
      have hred : downloadVideo cacheDir true urlPath timestamp
          ⟨true, some cl, cd, ct, pre ++ e :: rest⟩ maxMB =
          if cl > mbLimit maxMB then
            ⟨.error ("File too large: > " ++ toString maxMB ++
              "MB limit"), none⟩
          else downloadVideo.downloadStream cacheDir urlPath timestamp
            ⟨true, some cl, cd, ct, pre ++ e :: rest⟩ maxMB := rfl
      rw [hred, if_neg (by have := hcl cl rfl; omega), hstream, hfn, hloop]
      exact ⟨rfl, rfl⟩
    | none =>
      have hred : downloadVideo cacheDir true urlPath timestamp
          ⟨true, none, cd, ct, pre ++ e :: rest⟩ maxMB =
          downloadVideo.downloadStream cacheDir urlPath timestamp
            ⟨true, none, cd, ct, pre ++ e :: rest⟩ maxMB := rfl
      rw [hred, hstream, hfn, hloop]
      exact ⟨rfl, rfl⟩

/-- C5 amended witness: a successful 100-byte download leaves one file;
a mid-stream network error after 100 bytes leaves the 100-byte partial
file in place. -/
theorem download_partial_cleanup_amended_witness :
    ((∃ n, (downloadVideo "./temp_uploads" true "/v.mp4" "ts"
        ⟨true, none, "", "", [.chunk 100]⟩ 2048).cacheFile = some n) ∧
      ∃ fn, "./temp_uploads/v.mp4" = "./temp_uploads" ++ "/" ++ fn) ∧
    (downloadVideo "./temp_uploads" true "/v.mp4" "ts"
      ⟨true, none, "", "", [.chunk 100, .netErr "reset"]⟩ 2048).result =
        .error "reset" ∧
    (downloadVideo "./temp_uploads" true "/v.mp4" "ts"
      ⟨true, none, "", "", [.chunk 100, .netErr "reset"]⟩ 2048).cacheFile =
        some (totalBytes [DlEvent.chunk 100]) :=
  ⟨(download_partial_cleanup_amended "./temp_uploads" "/v.mp4" "ts"
      ⟨true, none, "", "", [.chunk 100]⟩ 2048).1 "./temp_uploads/v.mp4" rfl,
   (download_partial_cleanup_amended "./temp_uploads" "/v.mp4" "ts"
      ⟨true, none, "", "", [.chunk 100, .netErr "reset"]⟩ 2048).2.2
     [.chunk 100] (.netErr "reset") "reset" [] rfl (Or.inl rfl)
     (by intro e he; simp at he; exact ⟨_, he⟩)
     (by norm_num [totalBytes, mbLimit]) rfl
     (fun cl hcl => Option.noConfusion hcl) ⟨"v.mp4", rfl⟩⟩

/-! ## Claim C6 -/

/-- C6 counterexample: `_update_job_status` does not fail on a missing
job — it silently returns the unchanged store (first conjunct, empty
store: no `JobNotFound`, no error channel at all); and on a job already
in the terminal `Completed` state it does not reject the mutation — it
overwrites the status back to `Processing` (second conjunct: no
`InvalidTransition` guard). -/
theorem job_store_mutation_guard_counterexample :
    (updateJobStatus [] "j1" .processing "msg" 5 = []) ∧
    (dbFind (updateJobStatus
        [{ jobId := "j1", status := .completed, inputFile := "v.mp4",
           statusMessage := "done", generatedClips := [],
           errorMessage := none, createdAt := 0, updatedAt := 3,
           completedAt := some 3 }]
        "j1" .processing "msg" 5) "j1" =
      some { jobId := "j1", status := .processing, inputFile := "v.mp4",
             statusMessage := "msg", generatedClips := [],
             errorMessage := none, createdAt := 0, updatedAt := 5,
             completedAt := some 3 }) := ⟨rfl, rfl⟩

/-- C6 amended: a status mutation for a missing job id silently leaves
the store unchanged (no `JobNotFound` failure), and a status mutation for
an existing job — terminal or not — is applied unconditionally (no
`InvalidTransition` guard). -/
theorem job_store_mutation_guard_amended
    (db : List ClipJobRec) (jobId : String) (st : JobStatus) (msg : String)
    (now : Nat) :
    (dbFind db jobId = none → updateJobStatus db jobId st msg now = db) ∧
    (∀ j, dbFind db jobId = some j →
      dbFind (updateJobStatus db jobId st msg now) jobId =
        some { j with status := st, statusMessage := msg,
                      updatedAt := now }) := by
  constructor
  · intro h
    exact replaceFirst_of_not_found db jobId _ h
  · intro j h
    rw [updateJobStatus,
      dbFind_replaceFirst db jobId _ (applyMut_jobId now _), h]
    rfl

/-- C6 amended witness: the two conjuncts at concrete stores — an empty
store, and a store holding a `Completed` job. -/
theorem job_store_mutation_guard_amended_witness :
    (updateJobStatus [] "j2" .processing "m" 9 = []) ∧
    (dbFind (updateJobStatus
        [{ jobId := "j2", status := .completed, inputFile := "w.mp4",
           statusMessage := "done", generatedClips := [],
           errorMessage := none, createdAt := 1, updatedAt := 4,
           completedAt := some 4 }]
        "j2" .processing "m" 9) "j2" =
      some { jobId := "j2", status := .processing, inputFile := "w.mp4",
             statusMessage := "m", generatedClips := [],
             errorMessage := none, createdAt := 1, updatedAt := 9,
             completedAt := some 4 }) :=
  ⟨(job_store_mutation_guard_amended [] "j2" .processing "m" 9).1 rfl,
   (job_store_mutation_guard_amended
      [{ jobId := "j2", status := .completed, inputFile := "w.mp4",
         statusMessage := "done", generatedClips := [],
         errorMessage := none, createdAt := 1, updatedAt := 4,
         completedAt := some 4 }]
      "j2" .processing "m" 9).2
    { jobId := "j2", status := .completed, inputFile := "w.mp4",
      statusMessage := "done", generatedClips := [], errorMessage := none,
      createdAt := 1, updatedAt := 4, completedAt := some 4 } rfl⟩

/-! ## Claim C7 -/

theorem mem_contains (q : String) :
    ∀ fs : List String, fs.contains q = true ↔ q ∈ fs := by
  intro fs
  induction fs with
  | nil => simp
  | cons a l ih =>
    rw [show (a :: l).contains q = (q == a || l.contains q) from rfl]
    rw [List.mem_cons]
    constructor
    · intro h
      rcases Bool.or_eq_true_iff.mp h with h | h
      · exact Or.inl (eq_of_beq h)
      · exact Or.inr (ih.mp h)
    · intro h
      rcases h with h | h
      · exact Bool.or_eq_true_iff.mpr (Or.inl (beq_iff_eq.mpr h))
      · exact Bool.or_eq_true_iff.mpr (Or.inr (ih.mpr h))

theorem deleteClipsLoop_subset (uf : String → Bool) :
    ∀ (clips : List ClipMeta) (fs : List String) (n : Nat),
      (deleteClipsLoop uf clips fs n).1 ⊆ fs := by
  intro clips
  induction clips with
  | nil => intro fs n q hq; exact hq
  | cons c rest ih =>
    intro fs n
    rw [deleteClipsLoop]
    by_cases hc : fs.contains c.path
    · rw [if_pos hc]
      by_cases hu : uf c.path
      · rw [if_pos hu]; exact ih fs n
      · rw [if_neg hu]
        intro q hq
        exact List.mem_of_mem_filter
          (ih (fs.filter (fun p => p != c.path)) (n + 1) hq)
    · rw [if_neg hc]; exact ih fs n

theorem deleteClipsLoop_mem (uf : String → Bool) (q : String) :
    ∀ (clips : List ClipMeta) (fs : List String) (n : Nat),
      (∀ c ∈ clips, c.path ≠ q) →
      (q ∈ (deleteClipsLoop uf clips fs n).1 ↔ q ∈ fs) := by
  intro clips
  induction clips with
  | nil => intro fs n _; exact Iff.rfl
  | cons c rest ih =>
    intro fs n hq
    have hcq : c.path ≠ q := hq c (List.mem_cons_self c rest)
    have hrest : ∀ c' ∈ rest, c'.path ≠ q :=
      fun c' hcc => hq c' (List.mem_cons_of_mem c hcc)
    rw [deleteClipsLoop]
    by_cases hc : fs.contains c.path
    · rw [if_pos hc]
      by_cases hu : uf c.path
      · rw [if_pos hu]; exact ih fs n hrest
      · rw [if_neg hu]
        rw [ih (fs.filter (fun p => p != c.path)) (n + 1) hrest]
        simp only [List.mem_filter, bne_iff_ne]
        exact ⟨fun h => h.1, fun h => ⟨h, fun he => hcq he.symm⟩⟩
    · rw [if_neg hc]; exact ih fs n hrest

theorem deleteClipsLoop_count (uf : String → Bool) :
    ∀ (clips : List ClipMeta) (fs : List String) (n : Nat),
      (clips.map (fun c => c.path)).Nodup →
      (deleteClipsLoop uf clips fs n).2 =
        n + (clips.filter
          (fun c => fs.contains c.path && !uf c.path)).length := by
  intro clips
  induction clips with
  | nil => intro fs n _; simp [deleteClipsLoop]
  | cons c rest ih =>
    intro fs n hnd
    rw [List.map_cons, List.nodup_cons] at hnd
    obtain ⟨hnotin, hndrest⟩ := hnd
    rw [deleteClipsLoop]
    by_cases hc : fs.contains c.path
    · rw [if_pos hc]
      by_cases hu : uf c.path
      · rw [if_pos hu]
        rw [ih fs n hndrest]
        have hcond : (fs.contains c.path && !uf c.path) = false := by
          simp [hc, hu]
        rw [List.filter_cons, hcond]
        simp
      · rw [if_neg hu]
        rw [ih (fs.filter (fun p => p != c.path)) (n + 1) hndrest]
        have hcongr : rest.filter
            (fun c' => (fs.filter (fun p => p != c.path)).contains c'.path
              && !uf c'.path) =
            rest.filter (fun c' => fs.contains c'.path && !uf c'.path) := by
          apply List.filter_congr
          intro x hx
          have hne : x.path ≠ c.path := by
            intro he
            exact hnotin (he ▸ List.mem_map_of_mem (fun c' => c'.path) hx)
          have hmem : ((fs.filter (fun p => p != c.path)).contains x.path
              = true) ↔ (fs.contains x.path = true) := by
            rw [mem_contains, mem_contains]
            simp only [List.mem_filter, bne_iff_ne]
            exact ⟨fun h => h.1, fun h => ⟨h, hne⟩⟩
          have hfst : (fs.filter (fun p => p != c.path)).contains x.path =
              fs.contains x.path := by
            cases hfs : fs.contains x.path with
            | true => exact hmem.mpr hfs
            | false =>
              cases hfs' : (fs.filter (fun p => p != c.path)).contains x.path
                with
              | false => rfl
              | true =>
                rw [hmem.mp hfs'] at hfs
                exact absurd hfs (by simp)
          rw [hfst]
        rw [hcongr]
        simp only [Bool.not_eq_true] at hu
        have hcond : (fs.contains c.path && !uf c.path) = true := by
          rw [hc, hu]
          rfl
        rw [List.filter_cons, hcond]
        simp only [if_true, List.length_cons]
        omega
    · rw [if_neg hc]
      rw [ih fs n hndrest]
      have hcond : (fs.contains c.path && !uf c.path) = false := by
        cases hfs : fs.contains c.path
        · rfl
        · exact absurd hfs hc
      rw [List.filter_cons, hcond]
      simp

theorem deleteClipsLoop_removes (uf : String → Bool) :
    ∀ (clips : List ClipMeta) (fs : List String) (n : Nat) (c : ClipMeta),
      (clips.map (fun c => c.path)).Nodup → c ∈ clips →
      uf c.path = false → c.path ∉ (deleteClipsLoop uf clips fs n).1 := by
  intro clips
  induction clips with
  | nil => intro fs n c _ hc; exact absurd hc (List.not_mem_nil c)
  | cons c' rest ih =>
    intro fs n c hnd hc hu
    rw [List.map_cons, List.nodup_cons] at hnd
    obtain ⟨hnotin, hndrest⟩ := hnd
    rw [deleteClipsLoop]
    rcases List.mem_cons.mp hc with rfl | hcr
    · by_cases hcnt : fs.contains c.path
      · rw [if_pos hcnt, if_neg (by rw [hu]; exact Bool.false_ne_true)]
        intro hmem
        have := deleteClipsLoop_subset uf rest
          (fs.filter (fun p => p != c.path)) (n + 1) hmem
        rw [List.mem_filter] at this
        exact absurd this.2 (by simp)
      · rw [if_neg hcnt]
        intro hmem
        have := deleteClipsLoop_subset uf rest fs n hmem
        rw [← mem_contains] at this
        exact hcnt this
    · by_cases hcnt : fs.contains c'.path
      · rw [if_pos hcnt]
        by_cases hu' : uf c'.path
        · rw [if_pos hu']; exact ih fs n c hndrest hcr hu
        · rw [if_neg hu']
          exact ih (fs.filter (fun p => p != c'.path)) (n + 1) c hndrest
            hcr hu
      · rw [if_neg hcnt]; exact ih fs n c hndrest hcr hu


theorem deleteInputStep_subset (uf : String → Bool) (i : String)
    (fs : List String) : deleteInputStep uf i fs ⊆ fs := by
  rw [deleteInputStep]
  by_cases h1 : i != ""
  · rw [if_pos h1]
    by_cases h2 : containsSub i "temp_uploads" && fs.contains i
    · rw [if_pos h2]
      by_cases h3 : uf i
      · rw [if_pos h3]
        exact fun q hq => hq
      · rw [if_neg h3]
        exact fun q hq => List.mem_of_mem_filter hq
    · rw [if_neg h2]
      exact fun q hq => hq
  · rw [if_neg h1]
    exact fun q hq => hq

theorem deleteInputStep_not_mem (uf : String → Bool) (i : String)
    (fs : List String) :
    i ∉ deleteInputStep uf i fs ↔
      (i ∉ fs ∨ (i ≠ "" ∧ containsSub i "temp_uploads" = true ∧
        uf i = false)) := by
  rw [deleteInputStep]
  by_cases h1 : i != ""
  · rw [if_pos h1]
    have hne : i ≠ "" := by simpa using h1
    by_cases h2 : containsSub i "temp_uploads" && fs.contains i
    · have h2' : containsSub i "temp_uploads" = true ∧
          fs.contains i = true := by simpa using h2
      have hcs := h2'.1
      have hin : i ∈ fs := (mem_contains i fs).mp h2'.2
      rw [if_pos h2]
      by_cases h3 : uf i
      · rw [if_pos h3]
        constructor
        · intro h; exact Or.inl h
        · intro h
          rcases h with h | ⟨_, _, hu⟩
          · exact h
          · rw [h3] at hu; exact absurd hu (by simp)
      · rw [if_neg h3]
        have huf : uf i = false := by
          cases hu : uf i
          · rfl
          · exact absurd hu h3
        constructor
        · intro _; exact Or.inr ⟨hne, hcs, huf⟩
        · intro _ hmem
          rw [List.mem_filter] at hmem
          exact absurd hmem.2 (by simp)
    · rw [if_neg h2]
      constructor
      · intro h; exact Or.inl h
      · intro h
        rcases h with h | ⟨_, hcs, _⟩
        · exact h
        · intro hmem
          rw [hcs, Bool.true_and] at h2
          exact h2 ((mem_contains i fs).mpr hmem)
  · rw [if_neg h1]
    have he : i = "" := by simpa using h1
    constructor
    · intro h; exact Or.inl h
    · intro h
      rcases h with h | ⟨hne, _, _⟩
      · exact h
      · exact absurd he hne



/-- The concrete `Completed` job of the C7 counterexample: two artifacts
on disk and an input file at a caller-supplied path that merely contains
the substring `temp_uploads` without lying under the `./temp_uploads`
cache directory. -/
def c7Job : ClipJobRec :=
  { jobId := "j1"
    status := .completed
    inputFile := "/backups/temp_uploads_old/video.mp4"
    statusMessage := "done"
    generatedClips :=
      [{ filename := "clip_j1_001.mp4", path := "./clips/j1/clip_j1_001.mp4",
         startTime := 0, endTime := 1, duration := 1 },
       { filename := "clip_j1_002.mp4", path := "./clips/j1/clip_j1_002.mp4",
         startTime := 1, endTime := 2, duration := 1 }]
    errorMessage := none
    createdAt := 0
    updatedAt := 3
    completedAt := some 3 }

/-- The on-disk files of the C7 counterexample. -/
def c7Fs : List String :=
  ["./clips/j1/clip_j1_001.mp4", "./clips/j1/clip_j1_002.mp4",
   "/backups/temp_uploads_old/video.mp4"]

/-- C7 counterexample: deleting this job removes all three files — the
final filesystem is empty, so the caller-supplied input file
`/backups/temp_uploads_old/video.mp4`, which does not lie under the
`./temp_uploads` cache directory (third conjunct: the cache path is not a
prefix of it), is deleted because the code tests only for the substring
`temp_uploads`; and the returned count is 2 although 3 files were
removed (the input-file deletion is not counted). -/
theorem delete_scope_counterexample :
    (deleteJobClips [c7Job] c7Fs (fun _ => false) "j1").fs = [] ∧
    (deleteJobClips [c7Job] c7Fs (fun _ => false) "j1").clipsDeleted = 2 ∧
    isPre "./temp_uploads".toList
      "/backups/temp_uploads_old/video.mp4".toList = false :=
  ⟨rfl, rfl, rfl⟩

/-- C7 amended: deletion of an existing job always succeeds (individual
unlink failures do not abort it); the returned count is the number of
artifact files that existed and whose unlink succeeded — the input file
is not counted; every artifact file whose unlink succeeds is removed; and
the input file ends up removed iff it was absent already or its path is
non-empty, contains the substring `temp_uploads` (not: lies under the
cache directory), and its unlink succeeds. -/
theorem delete_scope_amended
    (db : List ClipJobRec) (fs : List String) (uf : String → Bool)
    (jobId : String) (job : ClipJobRec)
    (hfound : dbFind db jobId = some job)
    (hnodup : (job.generatedClips.map (fun c => c.path)).Nodup)
    (hinput : ∀ c ∈ job.generatedClips, c.path ≠ job.inputFile) :
    (deleteJobClips db fs uf jobId).response =
      .ok ("Job " ++ jobId ++ " deleted successfully") ∧
    (deleteJobClips db fs uf jobId).clipsDeleted =
      (job.generatedClips.filter
        (fun c => fs.contains c.path && !uf c.path)).length ∧
    (∀ c ∈ job.generatedClips, uf c.path = false →
      c.path ∉ (deleteJobClips db fs uf jobId).fs) ∧
    (job.inputFile ∉ (deleteJobClips db fs uf jobId).fs ↔
      (job.inputFile ∉ fs ∨
        (job.inputFile ≠ "" ∧
          containsSub job.inputFile "temp_uploads" = true ∧
          uf job.inputFile = false))) := by
  have hred : deleteJobClips db fs uf jobId =
      ⟨removeFirstJob db jobId,
       deleteInputStep uf job.inputFile
         (deleteClipsLoop uf job.generatedClips fs 0).1,
       (deleteClipsLoop uf job.generatedClips fs 0).2,
       .ok ("Job " ++ jobId ++ " deleted successfully")⟩ := by
    unfold deleteJobClips
    rw [hfound]
  rw [hred]
  refine ⟨rfl, ?_, ?_, ?_⟩
  · have := deleteClipsLoop_count uf job.generatedClips fs 0 hnodup
    simpa using this
  · intro c hc hu
    have h1 : c.path ∉ (deleteClipsLoop uf job.generatedClips fs 0).1 :=
      deleteClipsLoop_removes uf job.generatedClips fs 0 c hnodup hc hu
    intro hmem
    exact h1 (deleteInputStep_subset uf job.inputFile _ hmem)
  · have hmem1 : job.inputFile ∈
        (deleteClipsLoop uf job.generatedClips fs 0).1 ↔
        job.inputFile ∈ fs :=
      deleteClipsLoop_mem uf job.inputFile job.generatedClips fs 0 hinput
    rw [deleteInputStep_not_mem]
    constructor
    · intro h
      rcases h with h | h
      · exact Or.inl (fun hmem => h (hmem1.mpr hmem))
      · exact Or.inr h
    · intro h
      rcases h with h | h
      · exact Or.inl (fun hmem => h (hmem1.mp hmem))
      · exact Or.inr h

/-- C7 amended witness: the amended statement at the counterexample's
concrete job and filesystem. -/
theorem delete_scope_amended_witness :
    (deleteJobClips [c7Job] c7Fs (fun _ => false) "j1").response =
      .ok ("Job " ++ "j1" ++ " deleted successfully") ∧
    (deleteJobClips [c7Job] c7Fs (fun _ => false) "j1").clipsDeleted =
      (c7Job.generatedClips.filter
        (fun c => c7Fs.contains c.path && !(fun _ => false) c.path)).length ∧
    (∀ c ∈ c7Job.generatedClips, (fun _ => false) c.path = false →
      c.path ∉ (deleteJobClips [c7Job] c7Fs (fun _ => false) "j1").fs) ∧
    (c7Job.inputFile ∉ (deleteJobClips [c7Job] c7Fs (fun _ => false) "j1").fs
      ↔ (c7Job.inputFile ∉ c7Fs ∨
        (c7Job.inputFile ≠ "" ∧
          containsSub c7Job.inputFile "temp_uploads" = true ∧
          (fun _ => false) c7Job.inputFile = false))) :=
  delete_scope_amended [c7Job] c7Fs (fun _ => false) "j1" c7Job rfl
    (by decide) (by decide)



/-! ## Claim C8 -/

/-- The URL fallback equals a case split on the spec-side
`urlBasenameWithExt`. -/
theorem urlOrTimestampName_cases (urlPath ts ct : String) :
    (∃ b, urlBasenameWithExt urlPath = some b ∧
      urlOrTimestampName urlPath ts ct = b) ∨
    (urlBasenameWithExt urlPath = none ∧
      urlOrTimestampName urlPath ts ct = timestampName ts ct) := by
  rw [urlBasenameWithExt, urlOrTimestampName]
  by_cases h1 : urlPath != ""
  · rw [if_pos h1, if_pos h1]
    by_cases h2 : pathBasename urlPath != "" &&
        containsSub (pathBasename urlPath) "."
    · rw [if_pos h2, if_pos h2]
      exact Or.inl ⟨pathBasename urlPath, rfl, rfl⟩
    · rw [if_neg h2, if_neg h2]
      exact Or.inr ⟨rfl, rfl⟩
  · rw [if_neg h1, if_neg h1]
    exact Or.inr ⟨rfl, rfl⟩

/-- C8: for every successful filename derivation, the name comes from the
priority chain: (1) the content-disposition hint when the header yields
one; otherwise (2) the URL path's basename when it has an extension;
otherwise (3) the timestamp-based name with the content-type-derived
extension — and that extension defaults to `.mp4` whenever no
content-type key of the map matches. -/
theorem filename_priority (cd urlPath timestamp contentType : String) :
    (∀ fn, generateFilename cd urlPath timestamp contentType = .ok fn →
      ((∃ h, cdFilenameHint cd = some h ∧ fn = h) ∨
       (cdFilenameHint cd = none ∧
         (∃ b, urlBasenameWithExt urlPath = some b ∧ fn = b)) ∨
       (cdFilenameHint cd = none ∧ urlBasenameWithExt urlPath = none ∧
         fn = timestampName timestamp contentType))) ∧
    ((∀ kv ∈ extensionMap,
        containsSub (lowerStr contentType) kv.1 = false) →
      getExtension contentType = ".mp4") := by
  constructor
  · intro fn hfn
    rw [generateFilename] at hfn
    have hurl := urlOrTimestampName_cases urlPath timestamp contentType
    by_cases h1 : containsSub cd "filename"
    · rw [if_pos h1] at hfn
      cases h2 : splitSecondPiece cd "filename=" with
      | none =>
        rw [h2] at hfn
        exact absurd hfn (by simp)
      | some part =>
        rw [h2] at hfn
        dsimp only at hfn
        by_cases h3 : stripChars part quoteChars != ""
        · rw [if_pos h3] at hfn
          injection hfn with hfn
          refine Or.inl ⟨stripChars part quoteChars, ?_, hfn.symm⟩
          rw [cdFilenameHint, if_pos h1, h2]
          dsimp only
          rw [if_pos h3]
        · rw [if_neg h3] at hfn
          injection hfn with hfn
          have hint : cdFilenameHint cd = none := by
            rw [cdFilenameHint, if_pos h1, h2]
            dsimp only
            rw [if_neg h3]
          rcases hurl with ⟨b, hb, he⟩ | ⟨hb, he⟩
          · exact Or.inr (Or.inl ⟨hint, b, hb, by rw [← hfn, he]⟩)
          · exact Or.inr (Or.inr ⟨hint, hb, by rw [← hfn, he]⟩)
    · rw [if_neg h1] at hfn
      injection hfn with hfn
      have hint : cdFilenameHint cd = none := by
        rw [cdFilenameHint, if_neg h1]
      rcases hurl with ⟨b, hb, he⟩ | ⟨hb, he⟩
      · exact Or.inr (Or.inl ⟨hint, b, hb, by rw [← hfn, he]⟩)
      · exact Or.inr (Or.inr ⟨hint, hb, by rw [← hfn, he]⟩)
  · intro h
    rw [getExtension]
    have : extensionMap.find?
        (fun kv => containsSub (lowerStr contentType) kv.1) = none := by
      rw [List.find?_eq_none]
      intro kv hkv
      rw [h kv hkv]
      exact Bool.false_ne_true
    rw [this]

/-- C8 witness: the hinted name wins at a concrete header; the extension
defaults to `.mp4` for an unrecognized content-type. -/
theorem filename_priority_witness :
    ((∃ h, cdFilenameHint "attachment; filename=none.mp4" = some h ∧
        "none.mp4" = h) ∨
     (cdFilenameHint "attachment; filename=none.mp4" = none ∧
       (∃ b, urlBasenameWithExt "/x/y.mp4" = some b ∧ "none.mp4" = b)) ∨
     (cdFilenameHint "attachment; filename=none.mp4" = none ∧
       urlBasenameWithExt "/x/y.mp4" = none ∧
       "none.mp4" = timestampName "TS" "video/mp4")) ∧
    getExtension "weird" = ".mp4" :=
  ⟨(filename_priority "attachment; filename=none.mp4" "/x/y.mp4" "TS"
      "video/mp4").1 "none.mp4" rfl,
   (filename_priority "" "" "" "weird").2 (by decide)⟩

/-! ## Claim C9 -/

/-- C9: when the underlying trim call raises after the output file was
created, `MediaEditorService.trim` removes the file at `output_path`
before re-raising: the result is the error and the output path is absent
from the final filesystem, while every other file is untouched. -/
theorem trim_cleanup_on_failure
    (fs : List String) (s e : ℚ) (outputPath : String) (m : String)
    (hs : 0 ≤ s) (hse : s < e) :
    (trimMedia fs s e outputPath (.failCreated m)).1 = .error m ∧
    outputPath ∉ (trimMedia fs s e outputPath (.failCreated m)).2 ∧
    (∀ q ∈ fs, q ≠ outputPath →
      q ∈ (trimMedia fs s e outputPath (.failCreated m)).2) := by
  rw [trimMedia, if_neg (not_lt.mpr hs), if_neg (not_le.mpr hse)]
  refine ⟨rfl, by simp, ?_⟩
  intro q hq hne
  simp only [List.mem_filter, bne_iff_ne]
  exact ⟨List.mem_insert_of_mem hq, hne⟩

/-- C9 witness: a failing trim of the range 0-5 removes the freshly
created `out.mp4` and keeps the unrelated `other.mp4`. -/
theorem trim_cleanup_on_failure_witness :
    (trimMedia ["other.mp4"] 0 5 "out.mp4" (.failCreated "boom")).1 =
      .error "boom" ∧
    "out.mp4" ∉ (trimMedia ["other.mp4"] 0 5 "out.mp4"
      (.failCreated "boom")).2 ∧
    (∀ q ∈ ["other.mp4"], q ≠ "out.mp4" →
      q ∈ (trimMedia ["other.mp4"] 0 5 "out.mp4" (.failCreated "boom")).2) :=
  trim_cleanup_on_failure ["other.mp4"] 0 5 "out.mp4" "boom"
    (by norm_num) (by norm_num)



/-! ## Claim C10 -/

/-- C10: every produced artifact's metadata — in particular its filename
`clip_<jobId>_<NNN>.mp4` — embeds the 1-based position `s + 1` of its
originating segment among all detected segments (so surviving artifacts
keep their segment numbers and the sequence has gaps when trims fail),
while the single-clip download endpoint resolves a 0-based position in
the results list. -/
theorem artifact_naming_and_indexing :
    (∀ (d j : String) (clips : List Segment) (ok : Nat → Bool)
        (m : ClipMeta), m ∈ trimClips d j clips ok →
      ∃ s seg, clips.get? s = some seg ∧ ok (s + 1) = true ∧
        m = mkClipMeta d j (s + 1) seg ∧
        m.filename = clipFilename j (s + 1)) ∧
    (∀ (db : List ClipJobRec) (fs : List String) (jobId : String)
        (job : ClipJobRec) (i : Nat) (c : ClipMeta),
      dbFind db jobId = some job → job.status = .completed →
      job.generatedClips.get? i = some c → c.path ∈ fs →
      apiDownloadClip db fs jobId (i : Int) = .ok c.path) := by
  constructor
  · intro d j clips ok m hm
    rw [trimClips_eq_successfulArtifacts, successfulArtifacts] at hm
    rw [List.mem_map] at hm
    obtain ⟨p, hp, hmk⟩ := hm
    rw [List.mem_filter] at hp
    obtain ⟨hpe, hpok⟩ := hp
    obtain ⟨i, x⟩ := p
    rw [List.mk_mem_enumFrom_iff_le_and_getElem?_sub] at hpe
    obtain ⟨h1i, hx⟩ := hpe
    refine ⟨i - 1, x, ?_, ?_, ?_, ?_⟩
    · rw [List.get?_eq_getElem?]
      exact hx
    · have : i - 1 + 1 = i := by omega
      rw [this]
      exact hpok
    · have : i - 1 + 1 = i := by omega
      rw [this, ← hmk]
    · have : i - 1 + 1 = i := by omega
      rw [this, ← hmk]
      rfl
  · intro db fs jobId job i c hfound hst hget hfs
    have hi : i < job.generatedClips.length := by
      rcases List.get?_eq_some.mp hget with ⟨h, _⟩
      exact h
    rw [apiDownloadClip, hfound]
    dsimp only
    have hne : (job.status != JobStatus.completed) = false := by
      rw [hst]
      rfl
    rw [hne]
    simp only [Bool.false_eq_true, if_false]
    have hempty : job.generatedClips.isEmpty = false := by
      cases hemp : job.generatedClips.isEmpty
      · rfl
      · rw [List.isEmpty_iff.mp hemp] at hget
        exact absurd hget (by simp)
    rw [hempty]
    simp only [Bool.false_eq_true, if_false]
    rw [if_neg (by
      simp only [Bool.or_eq_true, decide_eq_true_eq, not_or]
      constructor
      · omega
      · omega)]
    rw [show ((i : Int).toNat) = i from Int.toNat_ofNat i, hget]
    dsimp only
    rw [if_pos ((mem_contains c.path fs).mpr hfs)]

/-- C10 witness: with three segments and the trim of segment 2 failing,
the second artifact in the results carries the filename of segment 3
(`clip_j1_003.mp4`), and downloading index 1 serves that artifact's
path. -/
theorem artifact_naming_and_indexing_witness :
    (∃ s seg,
      ([⟨0, 1⟩, ⟨1, 2⟩, ⟨2, 3⟩] : List Segment).get? s = some seg ∧
      (fun i => i != 2) (s + 1) = true ∧
      mkClipMeta "./clips" "j1" 3 ⟨2, 3⟩ =
        mkClipMeta "./clips" "j1" (s + 1) seg ∧
      (mkClipMeta "./clips" "j1" 3 ⟨2, 3⟩).filename =
        clipFilename "j1" (s + 1)) ∧
    apiDownloadClip
      [{ jobId := "j1", status := .completed, inputFile := "v.mp4",
         statusMessage := "done",
         generatedClips :=
           [mkClipMeta "./clips" "j1" 1 ⟨0, 1⟩,
            mkClipMeta "./clips" "j1" 3 ⟨2, 3⟩],
         errorMessage := none, createdAt := 0, updatedAt := 3,
         completedAt := some 3 }]
      [(mkClipMeta "./clips" "j1" 1 ⟨0, 1⟩).path,
       (mkClipMeta "./clips" "j1" 3 ⟨2, 3⟩).path]
      "j1" ((1 : Nat) : Int) =
      .ok (mkClipMeta "./clips" "j1" 3 ⟨2, 3⟩).path :=
  ⟨(artifact_naming_and_indexing).1 "./clips" "j1"
      [⟨0, 1⟩, ⟨1, 2⟩, ⟨2, 3⟩] (fun i => i != 2)
      (mkClipMeta "./clips" "j1" 3 ⟨2, 3⟩)
      (by simp [trimClips, trimClipsGo]),
   (artifact_naming_and_indexing).2
      [{ jobId := "j1", status := .completed, inputFile := "v.mp4",
         statusMessage := "done",
         generatedClips :=
           [mkClipMeta "./clips" "j1" 1 ⟨0, 1⟩,
            mkClipMeta "./clips" "j1" 3 ⟨2, 3⟩],
         errorMessage := none, createdAt := 0, updatedAt := 3,
         completedAt := some 3 }]
      [(mkClipMeta "./clips" "j1" 1 ⟨0, 1⟩).path,
       (mkClipMeta "./clips" "j1" 3 ⟨2, 3⟩).path]
      "j1" _ 1 (mkClipMeta "./clips" "j1" 3 ⟨2, 3⟩) rfl rfl rfl
      (by simp)⟩


end ClipAi
